import Mathlib

/-!
Shallow embedding of the ledger-consistent mutation layer of the dnd-mcp
repository (src/src/core/supabase_client.py) together with the response
cache it writes through.

The remote tabular store is modelled as explicit lists of rows per table.
Machine integers of the source (Python ints) are modelled as `Int`.
Python truthiness of optional arguments (`quantity if quantity else ...`,
`reason or "..."`) is modelled explicitly by `pyIntOpt` / `pyOr`.
-/

/-- Transaction types appearing in ledger entries. -/
inductive TxType
  | add
  | remove
  | transfer_in
  | transfer_out
deriving DecidableEq, Repr

/-- A row of the `inventory_current` table (mutable projection of one
item's quantity at one storage location). -/
structure InvRow where
  id : Nat
  storage_location_id : String
  item_name : String
  quantity : Int
  is_magic : Bool
  rarity : Option String
  item_type : Option String
  item_description : Option String
  requires_attunement : Bool
  notes : Option String
deriving DecidableEq, Repr

/-- A row of the `currency_current` table (one balance per location). -/
structure CurRow where
  id : Nat
  storage_location_id : String
  copper : Int
  silver : Int
  electrum : Int
  gold : Int
  platinum : Int
deriving DecidableEq, Repr

/-- A row of the immutable `inventory_ledger` table. -/
structure InvLedgerEntry where
  storage_location_id : String
  transaction_type : TxType
  item_name : String
  quantity : Int
  is_magic : Bool
  rarity : Option String
  item_type : Option String
  transfer_location_id : Option String
  reason : String
deriving DecidableEq, Repr

/-- A row of the immutable `currency_ledger` table. -/
structure CurLedgerEntry where
  storage_location_id : String
  transaction_type : TxType
  copper : Int
  silver : Int
  electrum : Int
  gold : Int
  platinum : Int
  reason : String
deriving DecidableEq, Repr

/-- The remote tabular store: the four tables the mutators touch, plus a
fresh-id counter standing for the store's generated row ids. -/
structure Remote where
  inventory_current : List InvRow
  currency_current : List CurRow
  inventory_ledger : List InvLedgerEntry
  currency_ledger : List CurLedgerEntry
  next_id : Nat
deriving DecidableEq, Repr

/-- Structured form of a cached query's parameters.  In the source the
cache key is `{prefix}_{table}_{md5(sorted params)}`; since the md5 hash
is a function of the parameter list, keys are modelled structurally as a
(table, query-key) pair.  `invKey loc name` stands for the parameters of
the mutators' `inventory_current` read (`select=*`, `storage_location_id=
eq.loc`, `item_name=eq.name`); `curKey loc` for the `currency_current`
read; `other` for any other parameter list. -/
inductive QKey
  | invKey (loc name : String)
  | curKey (loc : String)
  | other (params : List (String × String))
deriving DecidableEq, Repr

/-- Payload stored under a cache key: the rows the corresponding query
returned. -/
inductive CachePayload
  | inv (rows : List InvRow)
  | cur (rows : List CurRow)
  | viewRows (data : List String)
deriving DecidableEq, Repr

/-- Modelled from the spec: one entry of the APICache class
(`src/core/cache.py`, imported by the client but not present under
`src/`).  Per spec section 4.1 and `tests/test_cache.py`, the cache maps
string keys to stored payloads; keys here are the structural
(table, query-key) pairs described at `QKey`.  TTL expiry is not
modelled: no time passes inside the modelled operations, so every stored
entry is fresh. -/
structure CacheEntry where
  table : String
  qkey : QKey
  payload : CachePayload
deriving DecidableEq, Repr

/-- The whole state a client call can touch: remote store plus cache. -/
structure DB where
  remote : Remote
  cache : List CacheEntry
deriving DecidableEq, Repr

/-- Modelled from the spec: `APICache.get` restricted to a fixed table
and structural key — returns the stored payload for the key, absent
otherwise (spec section 4.1). -/
def lookupEntry (c : List CacheEntry) (t : String) (k : QKey) : Option CachePayload :=
  match c.find? (fun e => decide (e.table = t ∧ e.qkey = k)) with
  | some e => some e.payload
  | none => none

/-- Modelled from the spec: `APICache.set` — overwrite the entry for the
key with a fresh one (spec section 4.1). -/
def setEntry (c : List CacheEntry) (t : String) (k : QKey) (p : CachePayload) :
    List CacheEntry :=
  ⟨t, k, p⟩ :: c.filter (fun e => ¬ (e.table = t ∧ e.qkey = k))

/-- `SupabaseClient.invalidate_table_cache`: clears every cache entry of
the table, via `APICache.clear_prefix` on the key prefix
`{cache_prefix}_{table}_` (the repository's table names are such that no
table's key prefix is a prefix of another table's keys, so clearing the
prefix clears exactly that table's entries). -/
def invalidate_table_cache (t : String) (c : List CacheEntry) : List CacheEntry :=
  c.filter (fun e => e.table ≠ t)

/-- The static dependency map of `SupabaseClient.invalidate_related_caches`:
base table to dependent tables/views. -/
def related (t : String) : List String :=
  if t = "inventory_current" then ["v_inventory", "inventory_ledger"]
  else if t = "inventory_ledger" then ["v_inventory_history"]
  else if t = "currency_current" then ["v_currency_by_location", "v_total_wealth"]
  else if t = "currency_ledger" then ["v_currency_history"]
  else if t = "characters" then ["v_characters", "character_spells", "character_feats",
    "character_forms", "character_companions"]
  else if t = "character_spells" then ["v_character_spells"]
  else if t = "character_feats" then ["v_character_feats"]
  else if t = "character_forms" then ["v_character_forms"]
  else if t = "character_companions" then ["v_character_companions"]
  else if t = "storage_locations" then ["v_inventory", "v_currency_by_location"]
  else if t = "diary_entries" then []
  else []

/-- `SupabaseClient.invalidate_related_caches`: invalidate the written
table and every table/view listed for it. -/
def invalidate_related_caches (t : String) (c : List CacheEntry) : List CacheEntry :=
  (t :: related t).foldl (fun acc x => invalidate_table_cache x acc) c

/-- The rows the remote returns for the mutators' `inventory_current`
read: filter by `storage_location_id=eq.loc` and `item_name=eq.name`. -/
def invQuery (loc name : String) (rows : List InvRow) : List InvRow :=
  rows.filter (fun r => decide (r.storage_location_id = loc ∧ r.item_name = name))

/-- The rows the remote returns for the mutators' `currency_current`
read: filter by `storage_location_id=eq.loc`. -/
def curQuery (loc : String) (rows : List CurRow) : List CurRow :=
  rows.filter (fun r => decide (r.storage_location_id = loc))

/-- `SupabaseClient.get` on `inventory_current` with the mutators' filter
shape: consult the cache when `use_cache`, else fetch from remote and
populate the cache. -/
def getInv (loc name : String) (use_cache : Bool) (db : DB) : List InvRow × DB :=
  if use_cache then
    match lookupEntry db.cache "inventory_current" (.invKey loc name) with
    | some (.inv rows) => (rows, db)
    | _ =>
      let rows := invQuery loc name db.remote.inventory_current
      (rows, { db with cache := setEntry db.cache "inventory_current" (.invKey loc name) (.inv rows) })
  else
    (invQuery loc name db.remote.inventory_current, db)

/-- `SupabaseClient.get` on `currency_current` with the mutators' filter
shape. -/
def getCur (loc : String) (use_cache : Bool) (db : DB) : List CurRow × DB :=
  if use_cache then
    match lookupEntry db.cache "currency_current" (.curKey loc) with
    | some (.cur rows) => (rows, db)
    | _ =>
      let rows := curQuery loc db.remote.currency_current
      (rows, { db with cache := setEntry db.cache "currency_current" (.curKey loc) (.cur rows) })
  else
    (curQuery loc db.remote.currency_current, db)

/-- Row data for an `inventory_current` insert (all columns except the
generated id). -/
structure InvRowData where
  storage_location_id : String
  item_name : String
  quantity : Int
  is_magic : Bool
  rarity : Option String
  item_type : Option String
  item_description : Option String
  requires_attunement : Bool
  notes : Option String
deriving DecidableEq, Repr

/-- `SupabaseClient.insert` on `inventory_current`: append the row with a
store-generated id, then invalidate the table and its dependents.
Returns the inserted row (the response echo). -/
def insertInvRow (d : InvRowData) (db : DB) : InvRow × DB :=
  let row : InvRow := ⟨db.remote.next_id, d.storage_location_id, d.item_name, d.quantity,
    d.is_magic, d.rarity, d.item_type, d.item_description, d.requires_attunement, d.notes⟩
  (row,
    { remote := { db.remote with
        inventory_current := db.remote.inventory_current ++ [row],
        next_id := db.remote.next_id + 1 },
      cache := invalidate_related_caches "inventory_current" db.cache })

/-- `SupabaseClient.update_by_id` on `inventory_current` with a
`{"quantity": q}` patch: update every row whose id matches, invalidate,
and return the first affected row if any. -/
def updateInvQty (i : Nat) (q : Int) (db : DB) : Option InvRow × DB :=
  let rows := db.remote.inventory_current.map
    (fun r => if r.id = i then { r with quantity := q } else r)
  let affected := rows.filter (fun r => decide (r.id = i))
  (affected.head?,
    { remote := { db.remote with inventory_current := rows },
      cache := invalidate_related_caches "inventory_current" db.cache })

/-- `SupabaseClient.delete` on `inventory_current` filtered by id (used
both directly and through `delete_by_id`): remove matching rows and
invalidate. -/
def deleteInvById (i : Nat) (db : DB) : DB :=
  { remote := { db.remote with
      inventory_current := db.remote.inventory_current.filter (fun r => decide (r.id ≠ i)) },
    cache := invalidate_related_caches "inventory_current" db.cache }

/-- `SupabaseClient.insert` on `inventory_ledger`. -/
def insertInvLedger (e : InvLedgerEntry) (db : DB) : DB :=
  { remote := { db.remote with inventory_ledger := db.remote.inventory_ledger ++ [e] },
    cache := invalidate_related_caches "inventory_ledger" db.cache }

/-- `SupabaseClient.insert` on `currency_current`: append with a
generated id and invalidate. -/
def insertCurRow (loc : String) (c s e g p : Int) (db : DB) : DB :=
  let row : CurRow := ⟨db.remote.next_id, loc, c, s, e, g, p⟩
  { remote := { db.remote with
      currency_current := db.remote.currency_current ++ [row],
      next_id := db.remote.next_id + 1 },
    cache := invalidate_related_caches "currency_current" db.cache }

/-- `SupabaseClient.update_by_id` on `currency_current` with a
five-denomination balance patch. -/
def updateCurBalance (i : Nat) (c s e g p : Int) (db : DB) : DB :=
  { remote := { db.remote with
      currency_current := db.remote.currency_current.map
        (fun r => if r.id = i then ⟨r.id, r.storage_location_id, c, s, e, g, p⟩ else r) },
    cache := invalidate_related_caches "currency_current" db.cache }

/-- `SupabaseClient.insert` on `currency_ledger`. -/
def insertCurLedger (e : CurLedgerEntry) (db : DB) : DB :=
  { remote := { db.remote with currency_ledger := db.remote.currency_ledger ++ [e] },
    cache := invalidate_related_caches "currency_ledger" db.cache }

/-- Python truthiness for an optional int argument:
`quantity if quantity else default` (None and 0 are falsy). -/
def pyIntOpt (q : Option Int) (d : Int) : Int :=
  match q with
  | none => d
  | some n => if n = 0 then d else n

/-- Python truthiness for an optional string argument:
`reason or default` (None and the empty string are falsy). -/
def pyOr (r : Option String) (d : String) : String :=
  match r with
  | none => d
  | some s => if s = "" then d else s

/-- Python truthiness guard on an optional string field: the field is
included only when the value is neither None nor empty
(`if rarity: item_data["rarity"] = rarity`). -/
def strOpt (r : Option String) : Option String :=
  match r with
  | none => none
  | some s => if s = "" then none else some s

/-- Result of `remove_item`: the delete branch returns
`{"deleted": True, "item": item}` carrying the row as read; the update
branch returns what `update_by_id` returned (the updated row, or None
when no row matched the id). -/
inductive RemoveItemResult
  | deleted (item : InvRow)
  | updated (row : Option InvRow)
deriving DecidableEq, Repr

/-- Result of `transfer_item`: either `{"error": msg}` or
`{"success": True, "transferred": qty, "item": name}`. -/
inductive TransferItemResult
  | error (msg : String)
  | success (transferred : Int) (item : String)
deriving DecidableEq, Repr

/-- Result of `remove_currency`: either `{"error": msg}` or the row the
final re-read returned (`none` marks the case where that read came back
empty, on which the Python code would raise an IndexError at `[0]`). -/
inductive CurrencyResult
  | error (msg : String)
  | ok (row : Option CurRow)
deriving DecidableEq, Repr

/-- Result of `transfer_currency`:
`{"success": True, "transferred": {cp, sp, ep, gp, pp}}`. -/
structure TransferCurrencyResult where
  cp : Int
  sp : Int
  ep : Int
  gp : Int
  pp : Int
deriving DecidableEq, Repr

/-- `SupabaseClient.add_item` (lines 551-599): build the row data with
Python-truthy optional fields, insert it into `inventory_current`, then
append an `add` ledger entry (which records `rarity`/`item_type` as the
raw arguments, unguarded).  Always inserts; never looks for an existing
row of the same (location, item-name) key. -/
def add_item (loc name : String) (quantity : Int) (is_magic : Bool)
    (rarity item_type item_description : Option String) (requires_attunement : Bool)
    (notes : Option String) (reason : Option String) (db : DB) : Option InvRow × DB :=
  let d : InvRowData := ⟨loc, name, quantity, is_magic, strOpt rarity, strOpt item_type,
    strOpt item_description, requires_attunement, strOpt notes⟩
  let ins := insertInvRow d db
  let db2 := insertInvLedger
    ⟨loc, .add, name, quantity, is_magic, rarity, item_type, none,
      pyOr reason "Added to inventory"⟩ ins.2
  (some ins.1, db2)

/-- Body of `SupabaseClient.remove_item` after its initial read (lines
616-644), taking the rows that read returned: not-found yields None;
otherwise append a `remove` ledger entry recording the requested
quantity, then delete the row when the requested quantity is at least
the current one, else decrement it. -/
def removeItemCore (loc name : String) (quantity : Option Int) (reason : Option String)
    (items : List InvRow) (db1 : DB) : Option RemoveItemResult × DB :=
  match items with
  | [] => (none, db1)
  | item :: _ =>
    let current_qty := item.quantity
    let remove_qty := pyIntOpt quantity current_qty
    let db2 := insertInvLedger
      ⟨loc, .remove, name, remove_qty, item.is_magic, item.rarity, item.item_type, none,
        pyOr reason "Removed from inventory"⟩ db1
    if current_qty ≤ remove_qty then
      (some (.deleted item), deleteInvById item.id db2)
    else
      let u := updateInvQty item.id (current_qty - remove_qty) db2
      (some (.updated u.1), u.2)

/-- `SupabaseClient.remove_item` (lines 601-644): read the current rows
for the key through `get` with caching left enabled (the default), then
run the core. -/
def remove_item (loc name : String) (quantity : Option Int) (reason : Option String)
    (db : DB) : Option RemoveItemResult × DB :=
  let rd := getInv loc name true db
  removeItemCore loc name quantity reason rd.1 rd.2

/-- The source-side current-state write of `transfer_item` (lines
731-736): delete the source row when nothing remains, else decrement
it. -/
def transferSourceWrite (source_item : InvRow) (transfer_qty : Int) (db3 : DB) : DB :=
  let remaining := source_item.quantity - transfer_qty
  if remaining ≤ 0 then deleteInvById source_item.id db3
  else (updateInvQty source_item.id remaining db3).2

/-- The destination-side phase of `transfer_item` (lines 738-761): read
the destination rows for the key (again through the cached `get`), then
increment the first row or insert a new one copied from the source
row. -/
def transferDestPhase (to_loc name : String) (transfer_qty : Int) (source_item : InvRow)
    (db4 : DB) : DB :=
  let dest := getInv to_loc name true db4
  match dest.1 with
  | dest_item :: _ => (updateInvQty dest_item.id (dest_item.quantity + transfer_qty) dest.2).2
  | [] => (insertInvRow
      ⟨to_loc, name, transfer_qty, source_item.is_magic, source_item.rarity,
        source_item.item_type, source_item.item_description,
        source_item.requires_attunement, source_item.notes⟩ dest.2).2

/-- Body of `SupabaseClient.transfer_item` after its source read (lines
695-763): validate, append `transfer_out`/`transfer_in` ledger entries,
decrement or delete the source row, then run the destination phase. -/
def transferItemCore (from_loc to_loc name : String) (quantity : Option Int)
    (reason : Option String) (source_items : List InvRow) (db1 : DB) :
    TransferItemResult × DB :=
  match source_items with
  | [] => (.error ("Item '" ++ name ++ "' not found in source location"), db1)
  | source_item :: _ =>
    let transfer_qty := pyIntOpt quantity source_item.quantity
    if source_item.quantity < transfer_qty then
      (.error ("Cannot transfer " ++ toString transfer_qty ++ ", only " ++
        toString source_item.quantity ++ " available"), db1)
    else
      let db2 := insertInvLedger
        ⟨from_loc, .transfer_out, name, transfer_qty, source_item.is_magic,
          source_item.rarity, source_item.item_type, some to_loc,
          pyOr reason "Transferred to another location"⟩ db1
      let db3 := insertInvLedger
        ⟨to_loc, .transfer_in, name, transfer_qty, source_item.is_magic,
          source_item.rarity, source_item.item_type, some from_loc,
          pyOr reason "Transferred from another location"⟩ db2
      let db4 := transferSourceWrite source_item transfer_qty db3
      (.success transfer_qty name, transferDestPhase to_loc name transfer_qty source_item db4)

/-- `SupabaseClient.transfer_item` (lines 679-763): read the source rows
through the cached `get`, then run the core. -/
def transfer_item (from_loc to_loc name : String) (quantity : Option Int)
    (reason : Option String) (db : DB) : TransferItemResult × DB :=
  let rd := getInv from_loc name true db
  transferItemCore from_loc to_loc name quantity reason rd.1 rd.2

/-- Body of `SupabaseClient.add_currency` after its initial read (lines
800-836): update the existing balance row in place, or insert a new one
when the location has none; append an `add` ledger entry; re-read and
return the resulting row. -/
def addCurrencyCore (loc : String) (c s e g p : Int) (reason : Option String)
    (current : List CurRow) (db1 : DB) : Option CurRow × DB :=
  let db2 := match current with
    | row :: _ => updateCurBalance row.id (row.copper + c) (row.silver + s)
        (row.electrum + e) (row.gold + g) (row.platinum + p) db1
    | [] => insertCurRow loc c s e g p db1
  let db3 := insertCurLedger ⟨loc, .add, c, s, e, g, p, pyOr reason "Currency added"⟩ db2
  let rd := getCur loc true db3
  (rd.1.head?, rd.2)

/-- `SupabaseClient.add_currency` (lines 784-836). -/
def add_currency (loc : String) (c s e g p : Int) (reason : Option String) (db : DB) :
    Option CurRow × DB :=
  let rd := getCur loc true db
  addCurrencyCore loc c s e g p reason rd.1 rd.2

/-- Body of `SupabaseClient.remove_currency` after its initial read
(lines 854-881): error when the location has no record; otherwise write
the clamped balance (each denomination `max 0 (old - requested)`),
append a `remove` ledger entry recording the requested amounts, re-read
and return the resulting row. -/
def removeCurrencyCore (loc : String) (c s e g p : Int) (reason : Option String)
    (current : List CurRow) (db1 : DB) : CurrencyResult × DB :=
  match current with
  | [] => (.error "No currency record found for this location", db1)
  | row :: _ =>
    let db2 := updateCurBalance row.id (max 0 (row.copper - c)) (max 0 (row.silver - s))
      (max 0 (row.electrum - e)) (max 0 (row.gold - g)) (max 0 (row.platinum - p)) db1
    let db3 := insertCurLedger ⟨loc, .remove, c, s, e, g, p, pyOr reason "Currency removed"⟩ db2
    let rd := getCur loc true db3
    (.ok rd.1.head?, rd.2)

/-- `SupabaseClient.remove_currency` (lines 838-881). -/
def remove_currency (loc : String) (c s e g p : Int) (reason : Option String) (db : DB) :
    CurrencyResult × DB :=
  let rd := getCur loc true db
  removeCurrencyCore loc c s e g p reason rd.1 rd.2

/-- `SupabaseClient.transfer_currency` (lines 883-902): an independent
`remove_currency` at the source, an independent `add_currency` at the
destination (results of both discarded), then an unconditional success
value. -/
def transfer_currency (from_loc to_loc : String) (c s e g p : Int)
    (reason : Option String) (db : DB) : TransferCurrencyResult × DB :=
  let r1 := remove_currency from_loc c s e g p
    (some ("Transfer to another location: " ++ pyOr reason "")) db
  let r2 := add_currency to_loc c s e g p
    (some ("Transfer from another location: " ++ pyOr reason "")) r1.2
  (⟨c, s, e, g, p⟩, r2.2)

/-- One inventory mutator call, for reasoning about call sequences. -/
inductive InvOp
  | addOp (loc name : String) (quantity : Int) (is_magic : Bool)
      (rarity item_type item_description : Option String) (requires_attunement : Bool)
      (notes reason : Option String)
  | removeOp (loc name : String) (quantity : Option Int) (reason : Option String)
  | transferOp (from_loc to_loc name : String) (quantity : Option Int) (reason : Option String)
deriving DecidableEq, Repr

/-- Apply one inventory mutator call, discarding its result value. -/
def applyOp (op : InvOp) (db : DB) : DB :=
  match op with
  | .addOp loc name q m ra ty de at_ no re =>
    (add_item loc name q m ra ty de at_ no re db).2
  | .removeOp loc name q re => (remove_item loc name q re db).2
  | .transferOp f t name q re => (transfer_item f t name q re db).2

/-- Apply a sequence of inventory mutator calls in order. -/
def applyOps (ops : List InvOp) (db : DB) : DB :=
  match ops with
  | [] => db
  | op :: rest => applyOps rest (applyOp op db)

/-- The current-state quantity of one (location, item-name) key: the sum
of the quantities of all `inventory_current` rows for the key. -/
def invQty (loc name : String) (rows : List InvRow) : Int :=
  ((invQuery loc name rows).map (fun r => r.quantity)).sum

/-- Signed contribution of one ledger entry to a key's recorded balance:
`add`/`transfer_in` count positively, `remove`/`transfer_out` negatively,
entries for other keys count zero. -/
def entryDelta (loc name : String) (e : InvLedgerEntry) : Int :=
  if e.storage_location_id = loc ∧ e.item_name = name then
    match e.transaction_type with
    | .add => e.quantity
    | .transfer_in => e.quantity
    | .remove => -e.quantity
    | .transfer_out => -e.quantity
  else 0

/-- Sum of recorded ledger deltas for a key. -/
def ledgerBalance (loc name : String) (es : List InvLedgerEntry) : Int :=
  (es.map (entryDelta loc name)).sum

/-- Cache consistency for `inventory_current`: every cache entry of that
table holds exactly the rows the remote currently returns for its query
key.  Holds in particular for any cache with no `inventory_current`
entries, and is preserved by every inventory mutator (reads cache fresh
results, writes invalidate the table). -/
def invCacheConsistent (db : DB) : Bool :=
  db.cache.all (fun e =>
    if e.table = "inventory_current" then
      match e.qkey with
      | .invKey loc name => decide (e.payload = .inv (invQuery loc name db.remote.inventory_current))
      | _ => false
    else true)

/-- Cache consistency for `currency_current`, analogous to
`invCacheConsistent`. -/
def curCacheConsistent (db : DB) : Bool :=
  db.cache.all (fun e =>
    if e.table = "currency_current" then
      match e.qkey with
      | .curKey loc => decide (e.payload = .cur (curQuery loc db.remote.currency_current))
      | _ => false
    else true)

/-- Well-formed ids on `inventory_current`: ids are pairwise distinct and
below the store's fresh-id counter (true of any store whose rows were
created by the store's id generator). -/
def wfInv (db : DB) : Prop :=
  (db.remote.inventory_current.map (fun r => r.id)).Nodup ∧
    ∀ r ∈ db.remote.inventory_current, r.id < db.remote.next_id

/-- Decidability of `wfInv`, for concrete witnesses. -/
instance (db : DB) : Decidable (wfInv db) := by
  unfold wfInv
  infer_instance

/-- A removal step does not over-request: when the key has rows, the
effective remove quantity (the requested one, or the full current
quantity when the argument is absent or zero) is at most the first
matching row's quantity.  `add` and `transfer` steps are unconstrained. -/
def removeOk (op : InvOp) (db : DB) : Bool :=
  match op with
  | .removeOp loc name q _ =>
    match invQuery loc name db.remote.inventory_current with
    | [] => true
    | item :: _ => decide (pyIntOpt q item.quantity ≤ item.quantity)
  | _ => true

/-- `removeOk` along a whole call sequence, checked on the evolving
state. -/
def okTrace (ops : List InvOp) (db : DB) : Bool :=
  match ops with
  | [] => true
  | op :: rest => removeOk op db && okTrace rest (applyOp op db)

/-- The spec's description of currency transfer (section 4.3): an
independent `removeCurrency` at the source followed by an independent
`addCurrency` at the destination, results discarded, success returned
unconditionally. -/
def transferCurrencySpec (from_loc to_loc : String) (c s e g p : Int)
    (reason : Option String) (db : DB) : TransferCurrencyResult × DB :=
  let afterRemove := (remove_currency from_loc c s e g p
    (some ("Transfer to another location: " ++ pyOr reason "")) db).2
  let afterAdd := (add_currency to_loc c s e g p
    (some ("Transfer from another location: " ++ pyOr reason "")) afterRemove).2
  (⟨c, s, e, g, p⟩, afterAdd)


/-- All five denominations of the first row for a location are
non-negative (false when the location has no row). -/
def headNonNeg (rows : List CurRow) : Bool :=
  match rows with
  | [] => false
  | r :: _ => decide (0 ≤ r.copper) && decide (0 ≤ r.silver) && decide (0 ≤ r.electrum) &&
      decide (0 ≤ r.gold) && decide (0 ≤ r.platinum)

/-- Arguments of one `remove_currency` call (location fixed). -/
structure CurRemoveArgs where
  c : Int
  s : Int
  e : Int
  g : Int
  p : Int
  reason : Option String
deriving DecidableEq, Repr

/-- Apply a sequence of `remove_currency` calls at one location,
discarding the results. -/
def applyRemoves (loc : String) (ops : List CurRemoveArgs) (db : DB) : DB :=
  match ops with
  | [] => db
  | a :: rest => applyRemoves loc rest (remove_currency loc a.c a.s a.e a.g a.p a.reason db).2

/-- An empty store with an empty cache. -/
def dbEmpty : DB := ⟨⟨[], [], [], [], 0⟩, []⟩

/-- A store holding one Torch row at location A. -/
def torchRow : InvRow := ⟨0, "A", "Torch", 3, false, none, none, none, false, none⟩

def dbTorch : DB := ⟨⟨[torchRow], [], [], [], 1⟩, []⟩

/-- Like `dbTorch`, but location B also holds 7 Torches. -/
def dbTorchB : DB :=
  ⟨⟨[torchRow, ⟨1, "B", "Torch", 7, false, none, none, none, false, none⟩], [], [], [], 2⟩, []⟩

/-- A store holding 2 Potions of Healing at locA. -/
def potionRow : InvRow := ⟨0, "locA", "Potion of Healing", 2, false, none, none, none, false, none⟩

def dbPotion : DB := ⟨⟨[potionRow], [], [], [], 1⟩, []⟩

/-- A remote row of 10 Potions at A. -/
def remoteRow10 : InvRow := ⟨0, "A", "Potion", 10, false, none, none, none, false, none⟩

/-- A stale cached copy of that row claiming quantity 2. -/
def staleRow : InvRow := ⟨0, "A", "Potion", 2, false, none, none, none, false, none⟩

/-- A stale cached currency row for location L. -/
def staleCurRow : CurRow := ⟨0, "L", 9, 9, 9, 9, 9⟩

/-- A state whose cache holds stale rows for the mutators' read queries
while the remote differs. -/
def dbStale : DB :=
  ⟨⟨[remoteRow10], [⟨0, "L", 5, 0, 0, 3, 0⟩], [], [], 1⟩,
    [⟨"inventory_current", .invKey "A" "Potion", .inv [staleRow]⟩,
     ⟨"currency_current", .curKey "L", .cur [staleCurRow]⟩]⟩

/-- A currency record at location L: 5 copper, 3 gold. -/
def curRowL : CurRow := ⟨0, "L", 5, 0, 0, 3, 0⟩

def dbCurL : DB := ⟨⟨[], [curRowL], [], [], 1⟩, []⟩

/-- The spec's clamped-removal scenario: add 2 Potions of Healing, then
request removal of 5. -/
def opsClamped : List InvOp :=
  [.addOp "locA" "Potion of Healing" 2 false none none none false none none,
   .removeOp "locA" "Potion of Healing" (some 5) none]

/-- A well-behaved trace: add 5 Torches at A, transfer 3 to B, remove 2
at B. -/
def opsOk : List InvOp :=
  [.addOp "A" "Torch" 5 false none none none false none none,
   .transferOp "A" "B" "Torch" (some 3) none,
   .removeOp "B" "Torch" (some 2) none]

lemma mem_invalidate_foldl {ts : List String} {c : List CacheEntry} {e : CacheEntry}
    (he : e ∈ ts.foldl (fun acc x => invalidate_table_cache x acc) c) : e ∈ c := by
  induction ts generalizing c with
  | nil => simpa using he
  | cons a ts ih =>
    have h2 := ih (c := invalidate_table_cache a c) he
    exact List.mem_of_mem_filter h2

lemma table_ne_of_mem_invalidate {ts : List String} {t' : String} (ht : t' ∈ ts)
    {c : List CacheEntry} {e : CacheEntry}
    (he : e ∈ ts.foldl (fun acc x => invalidate_table_cache x acc) c) : e.table ≠ t' := by
  induction ts generalizing c with
  | nil => cases ht
  | cons a ts ih =>
    rcases List.mem_cons.mp ht with h | h
    · subst h
      have h2 : e ∈ invalidate_table_cache t' c := mem_invalidate_foldl he
      have h3 := List.of_mem_filter h2
      simpa using h3
    · exact ih h he

lemma mem_invalidate_related {t : String} {c : List CacheEntry} {e : CacheEntry}
    (he : e ∈ invalidate_related_caches t c) : e ∈ c := by
  unfold invalidate_related_caches at he
  exact mem_invalidate_foldl he

lemma table_ne_of_mem_invalidate_related {t t' : String} (ht : t' ∈ t :: related t)
    {c : List CacheEntry} {e : CacheEntry}
    (he : e ∈ invalidate_related_caches t c) : e.table ≠ t' := by
  unfold invalidate_related_caches at he
  exact table_ne_of_mem_invalidate ht he

lemma lookup_invalidate_related {t t' : String} (ht : t' ∈ t :: related t)
    (c : List CacheEntry) (k : QKey) :
    lookupEntry (invalidate_related_caches t c) t' k = none := by
  have hf : (invalidate_related_caches t c).find?
      (fun e => decide (e.table = t' ∧ e.qkey = k)) = none := by
    rw [List.find?_eq_none]
    intro e he
    have hne := table_ne_of_mem_invalidate_related ht he
    simp [hne]
  unfold lookupEntry
  rw [hf]

lemma invConsistent_mono {r r' : Remote} {c c' : List CacheEntry}
    (hsub : ∀ e ∈ c', e ∈ c) (hr : r'.inventory_current = r.inventory_current)
    (h : invCacheConsistent ⟨r, c⟩ = true) : invCacheConsistent ⟨r', c'⟩ = true := by
  rw [invCacheConsistent, List.all_eq_true] at h ⊢
  intro e he
  have h2 := h e (hsub e he)
  simpa [hr] using h2

lemma invConsistent_of_no_entries {r : Remote} {c : List CacheEntry}
    (h : ∀ e ∈ c, e.table ≠ "inventory_current") : invCacheConsistent ⟨r, c⟩ = true := by
  rw [invCacheConsistent, List.all_eq_true]
  intro e he
  simp [h e he]

lemma invConsistent_write (r' : Remote) (c : List CacheEntry) :
    invCacheConsistent ⟨r', invalidate_related_caches "inventory_current" c⟩ = true := by
  apply invConsistent_of_no_entries
  intro e he
  exact table_ne_of_mem_invalidate_related (List.mem_cons_self _ _) he

lemma curConsistent_mono {r r' : Remote} {c c' : List CacheEntry}
    (hsub : ∀ e ∈ c', e ∈ c) (hr : r'.currency_current = r.currency_current)
    (h : curCacheConsistent ⟨r, c⟩ = true) : curCacheConsistent ⟨r', c'⟩ = true := by
  rw [curCacheConsistent, List.all_eq_true] at h ⊢
  intro e he
  have h2 := h e (hsub e he)
  simpa [hr] using h2

lemma curConsistent_of_no_entries {r : Remote} {c : List CacheEntry}
    (h : ∀ e ∈ c, e.table ≠ "currency_current") : curCacheConsistent ⟨r, c⟩ = true := by
  rw [curCacheConsistent, List.all_eq_true]
  intro e he
  simp [h e he]

lemma curConsistent_write (r' : Remote) (c : List CacheEntry) :
    curCacheConsistent ⟨r', invalidate_related_caches "currency_current" c⟩ = true := by
  apply curConsistent_of_no_entries
  intro e he
  exact table_ne_of_mem_invalidate_related (List.mem_cons_self _ _) he

lemma lookup_some_inv {db : DB} {loc name : String} {rows : List InvRow}
    (h : invCacheConsistent db = true)
    (hlk : lookupEntry db.cache "inventory_current" (.invKey loc name) = some (.inv rows)) :
    rows = invQuery loc name db.remote.inventory_current := by
  unfold lookupEntry at hlk
  rcases hf : db.cache.find?
      (fun e => decide (e.table = "inventory_current" ∧ e.qkey = QKey.invKey loc name)) with _ | e
  · rw [hf] at hlk; cases hlk
  · rw [hf] at hlk
    have hmem := List.mem_of_find?_eq_some hf
    have hpred := List.find?_some hf
    have h1 : e.table = "inventory_current" ∧ e.qkey = QKey.invKey loc name := by
      simpa using hpred
    rw [invCacheConsistent, List.all_eq_true] at h
    have h2 := h e hmem
    rw [if_pos h1.1, h1.2] at h2
    have h3 : e.payload = .inv (invQuery loc name db.remote.inventory_current) := by
      simpa using h2
    have h4 := Option.some.inj hlk
    rw [h4] at h3
    exact CachePayload.inv.inj h3

lemma lookup_some_cur {db : DB} {loc : String} {rows : List CurRow}
    (h : curCacheConsistent db = true)
    (hlk : lookupEntry db.cache "currency_current" (.curKey loc) = some (.cur rows)) :
    rows = curQuery loc db.remote.currency_current := by
  unfold lookupEntry at hlk
  rcases hf : db.cache.find?
      (fun e => decide (e.table = "currency_current" ∧ e.qkey = QKey.curKey loc)) with _ | e
  · rw [hf] at hlk; cases hlk
  · rw [hf] at hlk
    have hmem := List.mem_of_find?_eq_some hf
    have hpred := List.find?_some hf
    have h1 : e.table = "currency_current" ∧ e.qkey = QKey.curKey loc := by
      simpa using hpred
    rw [curCacheConsistent, List.all_eq_true] at h
    have h2 := h e hmem
    rw [if_pos h1.1, h1.2] at h2
    have h3 : e.payload = .cur (curQuery loc db.remote.currency_current) := by
      simpa using h2
    have h4 := Option.some.inj hlk
    rw [h4] at h3
    exact CachePayload.cur.inj h3

lemma getInv_remote (loc name : String) (u : Bool) (db : DB) :
    (getInv loc name u db).2.remote = db.remote := by
  unfold getInv
  split
  · split <;> rfl
  · rfl

lemma getCur_remote (loc : String) (u : Bool) (db : DB) :
    (getCur loc u db).2.remote = db.remote := by
  unfold getCur
  split
  · split <;> rfl
  · rfl

lemma getInv_fst (loc name : String) (db : DB) (h : invCacheConsistent db = true) :
    (getInv loc name true db).1 = invQuery loc name db.remote.inventory_current := by
  unfold getInv
  simp only [if_pos]
  rcases hlk : lookupEntry db.cache "inventory_current" (.invKey loc name) with _ | p
  · simp [hlk]
  · rcases p with rows | crows | d
    · exact lookup_some_inv h hlk
    · simp [hlk]
    · simp [hlk]

lemma getCur_fst (loc : String) (db : DB) (h : curCacheConsistent db = true) :
    (getCur loc true db).1 = curQuery loc db.remote.currency_current := by
  unfold getCur
  simp only [if_pos]
  rcases hlk : lookupEntry db.cache "currency_current" (.curKey loc) with _ | p
  · simp [hlk]
  · rcases p with rows | crows | d
    · simp [hlk]
    · exact lookup_some_cur h hlk
    · simp [hlk]

lemma invConsistent_setEntry (db : DB) (loc name : String)
    (h : invCacheConsistent db = true) :
    invCacheConsistent ⟨db.remote, setEntry db.cache "inventory_current" (.invKey loc name)
      (.inv (invQuery loc name db.remote.inventory_current))⟩ = true := by
  rw [invCacheConsistent, List.all_eq_true]
  intro e he
  rcases List.mem_cons.mp he with h1 | h1
  · subst h1; simp
  · have h2 : e ∈ db.cache := List.mem_of_mem_filter h1
    rw [invCacheConsistent, List.all_eq_true] at h
    exact h e h2

lemma curConsistent_setEntry (db : DB) (loc : String)
    (h : curCacheConsistent db = true) :
    curCacheConsistent ⟨db.remote, setEntry db.cache "currency_current" (.curKey loc)
      (.cur (curQuery loc db.remote.currency_current))⟩ = true := by
  rw [curCacheConsistent, List.all_eq_true]
  intro e he
  rcases List.mem_cons.mp he with h1 | h1
  · subst h1; simp
  · have h2 : e ∈ db.cache := List.mem_of_mem_filter h1
    rw [curCacheConsistent, List.all_eq_true] at h
    exact h e h2

lemma getInv_consistent (loc name : String) (db : DB) (h : invCacheConsistent db = true) :
    invCacheConsistent (getInv loc name true db).2 = true := by
  unfold getInv
  simp only [if_pos]
  rcases hlk : lookupEntry db.cache "inventory_current" (.invKey loc name) with _ | p
  · simp only [hlk]
    exact invConsistent_setEntry db loc name h
  · rcases p with rows | crows | d
    · simpa [hlk] using h
    · simp only [hlk]
      exact invConsistent_setEntry db loc name h
    · simp only [hlk]
      exact invConsistent_setEntry db loc name h

lemma getCur_consistent (loc : String) (db : DB) (h : curCacheConsistent db = true) :
    curCacheConsistent (getCur loc true db).2 = true := by
  unfold getCur
  simp only [if_pos]
  rcases hlk : lookupEntry db.cache "currency_current" (.curKey loc) with _ | p
  · simp only [hlk]
    exact curConsistent_setEntry db loc h
  · rcases p with rows | crows | d
    · simp only [hlk]
      exact curConsistent_setEntry db loc h
    · simpa [hlk] using h
    · simp only [hlk]
      exact curConsistent_setEntry db loc h

lemma invQty_nil (lc nm : String) : invQty lc nm [] = 0 := rfl

lemma invQty_cons (lc nm : String) (x : InvRow) (xs : List InvRow) :
    invQty lc nm (x :: xs) =
      (if x.storage_location_id = lc ∧ x.item_name = nm then x.quantity else 0) +
        invQty lc nm xs := by
  unfold invQty invQuery
  rcases Decidable.em (x.storage_location_id = lc ∧ x.item_name = nm) with h | h
  · simp [List.filter_cons, h]
  · simp [List.filter_cons, h]

lemma invQty_append (lc nm : String) (xs ys : List InvRow) :
    invQty lc nm (xs ++ ys) = invQty lc nm xs + invQty lc nm ys := by
  unfold invQty invQuery
  simp [List.filter_append]

lemma invQuery_head_fields {loc name : String} {rows : List InvRow} {item : InvRow}
    {rest : List InvRow} (h : invQuery loc name rows = item :: rest) :
    item ∈ rows ∧ item.storage_location_id = loc ∧ item.item_name = name := by
  have h1 : item ∈ invQuery loc name rows := by
    rw [h]; exact List.mem_cons_self _ _
  unfold invQuery at h1
  have h2 := List.mem_filter.mp h1
  have h3 := of_decide_eq_true h2.2
  exact ⟨h2.1, h3.1, h3.2⟩

lemma curQuery_head_fields {loc : String} {rows : List CurRow} {row : CurRow}
    {rest : List CurRow} (h : curQuery loc rows = row :: rest) :
    row ∈ rows ∧ row.storage_location_id = loc := by
  have h1 : row ∈ curQuery loc rows := by
    rw [h]; exact List.mem_cons_self _ _
  unfold curQuery at h1
  have h2 := List.mem_filter.mp h1
  exact ⟨h2.1, of_decide_eq_true h2.2⟩

lemma invQty_map_update (lc nm : String) (q : Int) (rows : List InvRow) (item : InvRow)
    (hmem : item ∈ rows) (hnd : (rows.map (fun r => r.id)).Nodup) :
    invQty lc nm (rows.map (fun r => if r.id = item.id then { r with quantity := q } else r)) =
      invQty lc nm rows +
        (if item.storage_location_id = lc ∧ item.item_name = nm then q - item.quantity else 0) := by
  induction rows with
  | nil => cases hmem
  | cons x xs ih =>
    rw [List.map_cons, List.nodup_cons] at hnd
    rcases List.mem_cons.mp hmem with heq | hxs
    · subst heq
      have hxsid : ∀ r ∈ xs, ¬ r.id = item.id := by
        intro r hr hcontra
        exact hnd.1 (hcontra ▸ List.mem_map_of_mem (fun r => r.id) hr)
      have hmapeq : xs.map (fun r => if r.id = item.id then { r with quantity := q } else r) = xs := by
        rw [List.map_congr_left (fun r hr => if_neg (hxsid r hr))]
        exact List.map_id xs
      rw [List.map_cons, if_pos rfl, hmapeq, invQty_cons, invQty_cons]
      simp only []
      split_ifs with hkey
      · ring
      · ring
    · have hxid : ¬ x.id = item.id := by
        intro hcontra
        exact hnd.1 (hcontra ▸ List.mem_map_of_mem (fun r => r.id) hxs)
      rw [List.map_cons, if_neg hxid, invQty_cons, invQty_cons, ih hxs hnd.2]
      ring

lemma invQty_filter_ne (lc nm : String) (rows : List InvRow) (item : InvRow)
    (hmem : item ∈ rows) (hnd : (rows.map (fun r => r.id)).Nodup) :
    invQty lc nm (rows.filter (fun r => decide (r.id ≠ item.id))) =
      invQty lc nm rows -
        (if item.storage_location_id = lc ∧ item.item_name = nm then item.quantity else 0) := by
  induction rows with
  | nil => cases hmem
  | cons x xs ih =>
    rw [List.map_cons, List.nodup_cons] at hnd
    rcases List.mem_cons.mp hmem with heq | hxs
    · subst heq
      have hxsid : ∀ r ∈ xs, r.id ≠ item.id := by
        intro r hr hcontra
        exact hnd.1 (hcontra ▸ List.mem_map_of_mem (fun r => r.id) hr)
      have hfeq : xs.filter (fun r => decide (r.id ≠ item.id)) = xs := by
        apply List.filter_eq_self.mpr
        intro r hr
        exact decide_eq_true (hxsid r hr)
      rw [List.filter_cons, if_neg (by simp), hfeq, invQty_cons]
      split_ifs with hkey
      · ring
      · ring
    · have hxid : x.id ≠ item.id := by
        intro hcontra
        exact hnd.1 (hcontra ▸ List.mem_map_of_mem (fun r => r.id) hxs)
      rw [List.filter_cons, if_pos (decide_eq_true hxid), invQty_cons, invQty_cons,
        ih hxs hnd.2]
      ring

lemma ledgerBalance_append (lc nm : String) (es : List InvLedgerEntry) (e : InvLedgerEntry) :
    ledgerBalance lc nm (es ++ [e]) = ledgerBalance lc nm es + entryDelta lc nm e := by
  unfold ledgerBalance
  simp

lemma wf_of_remote_eq {db db' : DB} (h : db'.remote = db.remote) (hw : wfInv db) :
    wfInv db' := by
  unfold wfInv at hw ⊢
  rw [h]
  exact hw

lemma wf_insertInvLedger (e : InvLedgerEntry) (db : DB) (hw : wfInv db) :
    wfInv (insertInvLedger e db) := by
  unfold wfInv at hw ⊢
  simpa [insertInvLedger] using hw

lemma wf_insertInvRow (d : InvRowData) (db : DB) (hw : wfInv db) :
    wfInv (insertInvRow d db).2 := by
  obtain ⟨h1, h2⟩ := hw
  unfold insertInvRow
  constructor
  · rw [List.map_append, List.nodup_append]
    refine ⟨h1, List.nodup_singleton _, ?_⟩
    intro a ha hb
    have hlt : a < db.remote.next_id := by
      rcases List.mem_map.mp ha with ⟨r, hr, hid⟩
      rw [← hid]
      exact h2 r hr
    have heq : a = db.remote.next_id := by simpa using hb
    omega
  · intro r hr
    rcases List.mem_append.mp hr with h | h
    · have := h2 r h
      simp only []
      omega
    · have heq : r.id = db.remote.next_id := by
        rcases List.mem_singleton.mp h with rfl
        rfl
      simp only [heq]
      omega

lemma wf_updateInvQty (i : Nat) (q : Int) (db : DB) (hw : wfInv db) :
    wfInv (updateInvQty i q db).2 := by
  obtain ⟨h1, h2⟩ := hw
  unfold updateInvQty
  constructor
  · have hids : (db.remote.inventory_current.map
        (fun r => if r.id = i then { r with quantity := q } else r)).map (fun r => r.id) =
        db.remote.inventory_current.map (fun r => r.id) := by
      rw [List.map_map]
      apply List.map_congr_left
      intro r _
      by_cases h : r.id = i <;> simp [h]
    simp only []
    rw [hids]
    exact h1
  · intro r hr
    simp only [] at hr
    rcases List.mem_map.mp hr with ⟨r0, hr0, heq⟩
    have hlt := h2 r0 hr0
    by_cases h : r0.id = i
    · rw [← heq]
      simp [h]
      omega
    · rw [← heq]
      simp [h]
      omega

lemma wf_deleteInvById (i : Nat) (db : DB) (hw : wfInv db) :
    wfInv (deleteInvById i db) := by
  obtain ⟨h1, h2⟩ := hw
  unfold deleteInvById
  constructor
  · exact List.Nodup.sublist (List.Sublist.map _ (List.filter_sublist _)) h1
  · intro r hr
    exact h2 r (List.mem_of_mem_filter hr)

lemma add_step (loc name : String) (qty : Int) (m : Bool) (ra ty de : Option String)
    (at_ : Bool) (no re : Option String) (db : DB)
    (hc : invCacheConsistent db = true) (hw : wfInv db) :
    invCacheConsistent (add_item loc name qty m ra ty de at_ no re db).2 = true ∧
    wfInv (add_item loc name qty m ra ty de at_ no re db).2 ∧
    ∀ lc nm,
      invQty lc nm (add_item loc name qty m ra ty de at_ no re db).2.remote.inventory_current -
          invQty lc nm db.remote.inventory_current =
        ledgerBalance lc nm
            (add_item loc name qty m ra ty de at_ no re db).2.remote.inventory_ledger -
          ledgerBalance lc nm db.remote.inventory_ledger := by
  refine ⟨?_, ?_, ?_⟩
  · simp only [add_item, insertInvLedger, insertInvRow]
    apply invConsistent_mono (c := invalidate_related_caches "inventory_current" db.cache)
      (r := { db.remote with
        inventory_current := db.remote.inventory_current ++
          [⟨db.remote.next_id, loc, name, qty, m, strOpt ra, strOpt ty, strOpt de, at_, strOpt no⟩],
        next_id := db.remote.next_id + 1 })
    · intro e he
      exact mem_invalidate_related he
    · rfl
    · exact invConsistent_write _ _
  · simp only [add_item]
    exact wf_insertInvLedger _ _ (wf_insertInvRow _ _ hw)
  · intro lc nm
    simp only [add_item, insertInvLedger, insertInvRow]
    rw [invQty_append, ledgerBalance_append, invQty_cons, invQty_nil]
    simp only [entryDelta]
    split_ifs with h1
    · ring
    · ring

lemma remove_step (loc name : String) (q : Option Int) (re : Option String) (db : DB)
    (hc : invCacheConsistent db = true) (hw : wfInv db)
    (hok : removeOk (.removeOp loc name q re) db = true) :
    invCacheConsistent (remove_item loc name q re db).2 = true ∧
    wfInv (remove_item loc name q re db).2 ∧
    ∀ lc nm,
      invQty lc nm (remove_item loc name q re db).2.remote.inventory_current -
          invQty lc nm db.remote.inventory_current =
        ledgerBalance lc nm (remove_item loc name q re db).2.remote.inventory_ledger -
          ledgerBalance lc nm db.remote.inventory_ledger := by
  have hfst := getInv_fst loc name db hc
  have hrem := getInv_remote loc name true db
  have hco := getInv_consistent loc name db hc
  have hwA : wfInv (getInv loc name true db).2 := wf_of_remote_eq hrem hw
  simp only [remove_item, hfst]
  dsimp only [removeOk] at hok
  rcases hrows : invQuery loc name db.remote.inventory_current with _ | ⟨item, rest⟩
  · simp only [removeItemCore]
    refine ⟨hco, hwA, ?_⟩
    intro lc nm
    rw [hrem]
    ring
  · rw [hrows] at hok
    have hle : pyIntOpt q item.quantity ≤ item.quantity := of_decide_eq_true hok
    obtain ⟨hitem, hloc, hname⟩ := invQuery_head_fields hrows
    simp only [removeItemCore]
    by_cases hcase : item.quantity ≤ pyIntOpt q item.quantity
    · rw [if_pos hcase]
      have heq : pyIntOpt q item.quantity = item.quantity := le_antisymm hle hcase
      refine ⟨?_, ?_, ?_⟩
      · simp only [deleteInvById]
        exact invConsistent_write _ _
      · exact wf_deleteInvById _ _ (wf_insertInvLedger _ _ hwA)
      · intro lc nm
        simp only [deleteInvById, insertInvLedger]
        rw [hrem]
        rw [invQty_filter_ne lc nm _ item hitem hw.1, ledgerBalance_append]
        simp only [entryDelta, heq, hloc, hname]
        split_ifs with h1
        · ring
        · ring
    · rw [if_neg hcase]
      refine ⟨?_, ?_, ?_⟩
      · simp only [updateInvQty]
        exact invConsistent_write _ _
      · exact wf_updateInvQty _ _ _ (wf_insertInvLedger _ _ hwA)
      · intro lc nm
        simp only [updateInvQty, insertInvLedger]
        rw [hrem]
        rw [invQty_map_update lc nm _ _ item hitem hw.1, ledgerBalance_append]
        simp only [entryDelta, hloc, hname]
        split_ifs with h1
        · ring
        · ring

lemma sourceWrite_step (src : InvRow) (tq : Int) (db3 : DB) (hw3 : wfInv db3)
    (hmem : src ∈ db3.remote.inventory_current) (htq : tq ≤ src.quantity) :
    invCacheConsistent (transferSourceWrite src tq db3) = true ∧
    wfInv (transferSourceWrite src tq db3) ∧
    (transferSourceWrite src tq db3).remote.inventory_ledger = db3.remote.inventory_ledger ∧
    ∀ lc nm,
      invQty lc nm (transferSourceWrite src tq db3).remote.inventory_current =
        invQty lc nm db3.remote.inventory_current -
          (if src.storage_location_id = lc ∧ src.item_name = nm then tq else 0) := by
  unfold transferSourceWrite
  by_cases hrem0 : src.quantity - tq ≤ 0
  · rw [if_pos hrem0]
    have heq : tq = src.quantity := by omega
    refine ⟨?_, wf_deleteInvById _ _ hw3, rfl, ?_⟩
    · simp only [deleteInvById]
      exact invConsistent_write _ _
    · intro lc nm
      simp only [deleteInvById]
      rw [invQty_filter_ne lc nm _ src hmem hw3.1, heq]
  · rw [if_neg hrem0]
    refine ⟨?_, wf_updateInvQty _ _ _ hw3, rfl, ?_⟩
    · simp only [updateInvQty]
      exact invConsistent_write _ _
    · intro lc nm
      simp only [updateInvQty]
      rw [invQty_map_update lc nm _ _ src hmem hw3.1]
      split_ifs with h1
      · ring
      · ring

lemma destPhase_step (to_loc name : String) (tq : Int) (srcit : InvRow) (db4 : DB)
    (hc4 : invCacheConsistent db4 = true) (hw4 : wfInv db4) :
    invCacheConsistent (transferDestPhase to_loc name tq srcit db4) = true ∧
    wfInv (transferDestPhase to_loc name tq srcit db4) ∧
    (transferDestPhase to_loc name tq srcit db4).remote.inventory_ledger =
      db4.remote.inventory_ledger ∧
    ∀ lc nm,
      invQty lc nm (transferDestPhase to_loc name tq srcit db4).remote.inventory_current =
        invQty lc nm db4.remote.inventory_current +
          (if to_loc = lc ∧ name = nm then tq else 0) := by
  have hfst2 := getInv_fst to_loc name db4 hc4
  have hrem2 := getInv_remote to_loc name true db4
  have hco2 := getInv_consistent to_loc name db4 hc4
  have hw2 : wfInv (getInv to_loc name true db4).2 := wf_of_remote_eq hrem2 hw4
  simp only [transferDestPhase, hfst2]
  rcases hdest : invQuery to_loc name db4.remote.inventory_current with _ | ⟨dst, drest⟩
  · refine ⟨?_, wf_insertInvRow _ _ hw2, ?_, ?_⟩
    · simp only [insertInvRow]
      exact invConsistent_write _ _
    · simp only [insertInvRow]
      rw [hrem2]
    · intro lc nm
      simp only [insertInvRow]
      rw [hrem2, invQty_append, invQty_cons, invQty_nil]
      split_ifs with h1
      · ring
      · ring
  · obtain ⟨hdst_mem, hdst_loc, hdst_name⟩ := invQuery_head_fields hdest
    refine ⟨?_, wf_updateInvQty _ _ _ hw2, ?_, ?_⟩
    · simp only [updateInvQty]
      exact invConsistent_write _ _
    · simp only [updateInvQty]
      rw [hrem2]
    · intro lc nm
      simp only [updateInvQty]
      rw [hrem2]
      rw [invQty_map_update lc nm _ _ dst hdst_mem hw4.1, hdst_loc, hdst_name]
      split_ifs with h1
      · ring
      · ring

lemma transfer_step (f t name : String) (q : Option Int) (re : Option String) (db : DB)
    (hc : invCacheConsistent db = true) (hw : wfInv db) :
    invCacheConsistent (transfer_item f t name q re db).2 = true ∧
    wfInv (transfer_item f t name q re db).2 ∧
    ∀ lc nm,
      invQty lc nm (transfer_item f t name q re db).2.remote.inventory_current -
          invQty lc nm db.remote.inventory_current =
        ledgerBalance lc nm (transfer_item f t name q re db).2.remote.inventory_ledger -
          ledgerBalance lc nm db.remote.inventory_ledger := by
  have hfst := getInv_fst f name db hc
  have hrem := getInv_remote f name true db
  have hco := getInv_consistent f name db hc
  have hwA : wfInv (getInv f name true db).2 := wf_of_remote_eq hrem hw
  simp only [transfer_item, hfst]
  rcases hrows : invQuery f name db.remote.inventory_current with _ | ⟨src, rest⟩
  · simp only [transferItemCore]
    refine ⟨hco, hwA, ?_⟩
    intro lc nm
    rw [hrem]
    ring
  · obtain ⟨hsrc_mem, hsrc_loc, hsrc_name⟩ := invQuery_head_fields hrows
    simp only [transferItemCore]
    by_cases hguard : src.quantity < pyIntOpt q src.quantity
    · rw [if_pos hguard]
      refine ⟨hco, hwA, ?_⟩
      intro lc nm
      rw [hrem]
      ring
    · rw [if_neg hguard]
      have htq : pyIntOpt q src.quantity ≤ src.quantity := le_of_not_lt hguard
      have hsrc_mem3 : src ∈ (insertInvLedger
          ⟨t, .transfer_in, name, pyIntOpt q src.quantity, src.is_magic, src.rarity,
            src.item_type, some f, pyOr re "Transferred from another location"⟩
          (insertInvLedger
            ⟨f, .transfer_out, name, pyIntOpt q src.quantity, src.is_magic, src.rarity,
              src.item_type, some t, pyOr re "Transferred to another location"⟩
            (getInv f name true db).2)).remote.inventory_current := by
        simp only [insertInvLedger]
        rw [hrem]
        exact hsrc_mem
      have hw3 : wfInv (insertInvLedger
          ⟨t, .transfer_in, name, pyIntOpt q src.quantity, src.is_magic, src.rarity,
            src.item_type, some f, pyOr re "Transferred from another location"⟩
          (insertInvLedger
            ⟨f, .transfer_out, name, pyIntOpt q src.quantity, src.is_magic, src.rarity,
              src.item_type, some t, pyOr re "Transferred to another location"⟩
            (getInv f name true db).2)) :=
        wf_insertInvLedger _ _ (wf_insertInvLedger _ _ hwA)
      obtain ⟨hc4, hw4, hled4, hqty4⟩ := sourceWrite_step src (pyIntOpt q src.quantity) _ hw3 hsrc_mem3 htq
      obtain ⟨hc6, hw6, hled6, hqty6⟩ := destPhase_step t name (pyIntOpt q src.quantity) src _ hc4 hw4
      refine ⟨hc6, hw6, ?_⟩
      intro lc nm
      rw [hqty6 lc nm, hqty4 lc nm, hled6, hled4]
      simp only [insertInvLedger]
      rw [hrem]
      rw [show (db.remote.inventory_ledger ++
          [(⟨f, .transfer_out, name, pyIntOpt q src.quantity, src.is_magic, src.rarity,
            src.item_type, some t, pyOr re "Transferred to another location"⟩ : InvLedgerEntry)]) ++
          [(⟨t, .transfer_in, name, pyIntOpt q src.quantity, src.is_magic, src.rarity,
            src.item_type, some f, pyOr re "Transferred from another location"⟩ : InvLedgerEntry)] =
        db.remote.inventory_ledger ++
          [(⟨f, .transfer_out, name, pyIntOpt q src.quantity, src.is_magic, src.rarity,
            src.item_type, some t, pyOr re "Transferred to another location"⟩ : InvLedgerEntry)] ++
          [(⟨t, .transfer_in, name, pyIntOpt q src.quantity, src.is_magic, src.rarity,
            src.item_type, some f, pyOr re "Transferred from another location"⟩ : InvLedgerEntry)]
        from rfl]
      rw [ledgerBalance_append, ledgerBalance_append]
      simp only [entryDelta, hsrc_loc, hsrc_name]
      split_ifs with h1 h2 h2
      · ring
      · ring
      · ring
      · ring

lemma applyOp_step (op : InvOp) (db : DB) (hc : invCacheConsistent db = true)
    (hw : wfInv db) (hok : removeOk op db = true) :
    invCacheConsistent (applyOp op db) = true ∧ wfInv (applyOp op db) ∧
    ∀ lc nm,
      invQty lc nm (applyOp op db).remote.inventory_current -
          invQty lc nm db.remote.inventory_current =
        ledgerBalance lc nm (applyOp op db).remote.inventory_ledger -
          ledgerBalance lc nm db.remote.inventory_ledger := by
  cases op with
  | addOp loc name qty m ra ty de at_ no re =>
    simp only [applyOp]
    exact add_step loc name qty m ra ty de at_ no re db hc hw
  | removeOp loc name q re =>
    simp only [applyOp]
    exact remove_step loc name q re db hc hw hok
  | transferOp f t name q re =>
    simp only [applyOp]
    exact transfer_step f t name q re db hc hw

lemma conservation_trace (ops : List InvOp) (db : DB) (hc : invCacheConsistent db = true)
    (hw : wfInv db) (hok : okTrace ops db = true) :
    invCacheConsistent (applyOps ops db) = true ∧ wfInv (applyOps ops db) ∧
    ∀ lc nm,
      invQty lc nm (applyOps ops db).remote.inventory_current -
          invQty lc nm db.remote.inventory_current =
        ledgerBalance lc nm (applyOps ops db).remote.inventory_ledger -
          ledgerBalance lc nm db.remote.inventory_ledger := by
  induction ops generalizing db with
  | nil =>
    refine ⟨hc, hw, ?_⟩
    intro lc nm
    simp only [applyOps]
    ring
  | cons op rest ih =>
    rw [okTrace, Bool.and_eq_true] at hok
    obtain ⟨hc1, hw1, hd1⟩ := applyOp_step op db hc hw hok.1
    obtain ⟨hc2, hw2, hd2⟩ := ih (applyOp op db) hc1 hw1 hok.2
    refine ⟨hc2, hw2, ?_⟩
    intro lc nm
    have e1 := hd1 lc nm
    have e2 := hd2 lc nm
    simp only [applyOps] at e2 ⊢
    linarith

lemma curQuery_append (loc : String) (xs ys : List CurRow) :
    curQuery loc (xs ++ ys) = curQuery loc xs ++ curQuery loc ys := by
  unfold curQuery
  simp [List.filter_append]

lemma curQuery_map_update (loc : String) (rows : List CurRow) (i : Nat)
    (cc ss ee gg pp : Int) :
    curQuery loc (rows.map
        (fun r => if r.id = i then ⟨r.id, r.storage_location_id, cc, ss, ee, gg, pp⟩ else r)) =
      (curQuery loc rows).map
        (fun r => if r.id = i then ⟨r.id, r.storage_location_id, cc, ss, ee, gg, pp⟩ else r) := by
  induction rows with
  | nil => rfl
  | cons x xs ih =>
    by_cases hid : x.id = i
    · by_cases hloc : x.storage_location_id = loc
      · simp [curQuery, List.filter_cons, hid, hloc] at ih ⊢
        exact ih
      · simp [curQuery, List.filter_cons, hid, hloc] at ih ⊢
        exact ih
    · by_cases hloc : x.storage_location_id = loc
      · simp [curQuery, List.filter_cons, hid, hloc] at ih ⊢
        exact ih
      · simp [curQuery, List.filter_cons, hid, hloc] at ih ⊢
        exact ih

lemma curConsistent_insertCurLedger (e : CurLedgerEntry) (db : DB)
    (h : curCacheConsistent db = true) : curCacheConsistent (insertCurLedger e db) = true := by
  simp only [insertCurLedger]
  apply curConsistent_mono (r := db.remote) (c := db.cache)
  · intro x hx
    exact mem_invalidate_related hx
  · rfl
  · rcases db with ⟨r, c⟩
    exact h

lemma removeCurrency_step (loc : String) (c s e g p : Int) (re : Option String) (db : DB)
    (hc : curCacheConsistent db = true)
    (hrec : curQuery loc db.remote.currency_current ≠ []) :
    curCacheConsistent (remove_currency loc c s e g p re db).2 = true ∧
    curQuery loc (remove_currency loc c s e g p re db).2.remote.currency_current ≠ [] ∧
    headNonNeg (curQuery loc (remove_currency loc c s e g p re db).2.remote.currency_current) = true := by
  have hfst := getCur_fst loc db hc
  have hrem := getCur_remote loc true db
  have hco := getCur_consistent loc db hc
  simp only [remove_currency, hfst]
  rcases hrow : curQuery loc db.remote.currency_current with _ | ⟨row, rrest⟩
  · exact absurd hrow hrec
  · simp only [removeCurrencyCore]
    have hcons2 : curCacheConsistent (updateCurBalance row.id (max 0 (row.copper - c))
        (max 0 (row.silver - s)) (max 0 (row.electrum - e)) (max 0 (row.gold - g))
        (max 0 (row.platinum - p)) (getCur loc true db).2) = true := by
      simp only [updateCurBalance]
      exact curConsistent_write _ _
    have hcons3 := curConsistent_insertCurLedger
      ⟨loc, .remove, c, s, e, g, p, pyOr re "Currency removed"⟩ _ hcons2
    have hpost : curQuery loc (insertCurLedger ⟨loc, .remove, c, s, e, g, p, pyOr re "Currency removed"⟩
        (updateCurBalance row.id (max 0 (row.copper - c)) (max 0 (row.silver - s))
          (max 0 (row.electrum - e)) (max 0 (row.gold - g)) (max 0 (row.platinum - p))
          (getCur loc true db).2)).remote.currency_current =
        (curQuery loc db.remote.currency_current).map
          (fun r => if r.id = row.id then ⟨r.id, r.storage_location_id, max 0 (row.copper - c),
            max 0 (row.silver - s), max 0 (row.electrum - e), max 0 (row.gold - g),
            max 0 (row.platinum - p)⟩ else r) := by
      simp only [insertCurLedger, updateCurBalance]
      rw [hrem]
      exact curQuery_map_update loc db.remote.currency_current row.id _ _ _ _ _
    refine ⟨?_, ?_, ?_⟩
    · exact getCur_consistent loc _ hcons3
    · rw [getCur_remote, hpost, hrow]
      simp
    · rw [getCur_remote, hpost, hrow]
      simp only [List.map_cons, if_pos rfl]
      unfold headNonNeg
      simp only [Bool.and_eq_true, decide_eq_true_eq]
      refine ⟨⟨⟨⟨?_, ?_⟩, ?_⟩, ?_⟩, ?_⟩ <;> exact le_max_left 0 _

lemma removes_trace (loc : String) (ops : List CurRemoveArgs) (db : DB)
    (hc : curCacheConsistent db = true)
    (hrec : curQuery loc db.remote.currency_current ≠ []) :
    curCacheConsistent (applyRemoves loc ops db) = true ∧
    curQuery loc (applyRemoves loc ops db).remote.currency_current ≠ [] ∧
    (ops ≠ [] → headNonNeg (curQuery loc (applyRemoves loc ops db).remote.currency_current) = true) := by
  induction ops generalizing db with
  | nil =>
    exact ⟨hc, hrec, fun h => absurd rfl h⟩
  | cons a rest ih =>
    obtain ⟨hc1, hrec1, hnn1⟩ := removeCurrency_step loc a.c a.s a.e a.g a.p a.reason db hc hrec
    obtain ⟨hc2, hrec2, hnn2⟩ := ih _ hc1 hrec1
    refine ⟨hc2, hrec2, fun _ => ?_⟩
    rcases hrest : rest with _ | ⟨b, rest2⟩
    · subst hrest
      simpa [applyRemoves] using hnn1
    · subst hrest
      exact hnn2 (by simp)

/-- C8: for every `transferCurrency` call, the operation equals the
sequential composition of an independent `removeCurrency` at the source
followed by an independent `addCurrency` at the destination (with the
derived reasons the code passes), and it returns the success value
unconditionally — there is no shared rollback between the two write
sequences. -/
theorem c8_transfer_currency_composition (f t : String) (c s e g p : Int)
    (r : Option String) (db : DB) :
    transfer_currency f t c s e g p r db = transferCurrencySpec f t c s e g p r db ∧
    (transfer_currency f t c s e g p r db).1 = ⟨c, s, e, g, p⟩ :=
  ⟨rfl, rfl⟩

/-- C5: after any non-empty sequence of `removeCurrency` calls on a
location that has a currency record (starting from a state whose cache
agrees with the remote for currency reads), no denomination of the
resulting balance is negative: each denomination is clamped at zero. -/
theorem c5_remove_currency_nonneg (loc : String) (ops : List CurRemoveArgs) (db : DB)
    (hc : curCacheConsistent db = true)
    (hrec : curQuery loc db.remote.currency_current ≠ [])
    (hne : ops ≠ []) :
    headNonNeg (curQuery loc (applyRemoves loc ops db).remote.currency_current) = true :=
  (removes_trace loc ops db hc hrec).2.2 hne

/-- Witness for C5: location L holds 5 copper and 3 gold; removing
(10, 2, 0, 1, 0) and then (1, 1, 1, 1, 1) leaves every denomination
non-negative. -/
theorem c5_remove_currency_nonneg_witness :
    curCacheConsistent dbCurL = true ∧
    curQuery "L" dbCurL.remote.currency_current ≠ [] ∧
    ([⟨10, 2, 0, 1, 0, none⟩, ⟨1, 1, 1, 1, 1, none⟩] : List CurRemoveArgs) ≠ [] ∧
    headNonNeg (curQuery "L"
      (applyRemoves "L" [⟨10, 2, 0, 1, 0, none⟩, ⟨1, 1, 1, 1, 1, none⟩] dbCurL).remote.currency_current) = true :=
  ⟨by decide, by decide, by decide,
    c5_remove_currency_nonneg "L" [⟨10, 2, 0, 1, 0, none⟩, ⟨1, 1, 1, 1, 1, none⟩] dbCurL
      (by decide) (by decide) (by decide)⟩

/-- C6: every write operation of the Data Access Client on a table
invalidates the cache entries of that table and of every table/view
listed for it in the static dependency map, so a lookup of any such
table's key immediately after the write misses. -/
theorem c6_write_invalidates_dependents (tb t' u x w y : String) (k : QKey)
    (cch : List CacheEntry) (db : DB) (d : InvRowData) (i : Nat) (q : Int)
    (le : InvLedgerEntry) (ce : CurLedgerEntry) (loc : String) (c s e g p : Int)
    (h1 : t' ∈ tb :: related tb)
    (h2 : u ∈ "inventory_current" :: related "inventory_current")
    (h3 : x ∈ "inventory_ledger" :: related "inventory_ledger")
    (h4 : w ∈ "currency_current" :: related "currency_current")
    (h5 : y ∈ "currency_ledger" :: related "currency_ledger") :
    lookupEntry (invalidate_related_caches tb cch) t' k = none ∧
    lookupEntry (insertInvRow d db).2.cache u k = none ∧
    lookupEntry (updateInvQty i q db).2.cache u k = none ∧
    lookupEntry (deleteInvById i db).cache u k = none ∧
    lookupEntry (insertInvLedger le db).cache x k = none ∧
    lookupEntry (insertCurRow loc c s e g p db).cache w k = none ∧
    lookupEntry (updateCurBalance i c s e g p db).cache w k = none ∧
    lookupEntry (insertCurLedger ce db).cache y k = none := by
  refine ⟨lookup_invalidate_related h1 cch k, ?_, ?_, ?_, ?_, ?_, ?_, ?_⟩
  · simp only [insertInvRow]
    exact lookup_invalidate_related h2 db.cache k
  · simp only [updateInvQty]
    exact lookup_invalidate_related h2 db.cache k
  · simp only [deleteInvById]
    exact lookup_invalidate_related h2 db.cache k
  · simp only [insertInvLedger]
    exact lookup_invalidate_related h3 db.cache k
  · simp only [insertCurRow]
    exact lookup_invalidate_related h4 db.cache k
  · simp only [updateCurBalance]
    exact lookup_invalidate_related h4 db.cache k
  · simp only [insertCurLedger]
    exact lookup_invalidate_related h5 db.cache k

/-- Witness for C6: after an insert into `inventory_current` of a state
whose cache holds entries for `inventory_current` and its dependent view
`v_inventory`, both lookups miss (and so on for the other write forms). -/
theorem c6_write_invalidates_dependents_witness :
    ("v_inventory" ∈ "inventory_current" :: related "inventory_current") ∧
    (lookupEntry (invalidate_related_caches "inventory_current"
        [⟨"v_inventory", .other [], .viewRows []⟩]) "v_inventory" (.other []) = none ∧
      lookupEntry (insertInvRow ⟨"A", "Torch", 1, false, none, none, none, false, none⟩
        dbStale).2.cache "v_inventory" (.other []) = none ∧
      lookupEntry (updateInvQty 0 4 dbStale).2.cache "v_inventory" (.other []) = none ∧
      lookupEntry (deleteInvById 0 dbStale).cache "v_inventory" (.other []) = none ∧
      lookupEntry (insertInvLedger ⟨"A", .add, "Torch", 1, false, none, none, none, "r"⟩
        dbStale).cache "v_inventory_history" (.other []) = none ∧
      lookupEntry (insertCurRow "L" 1 1 1 1 1 dbStale).cache "v_total_wealth" (.other []) = none ∧
      lookupEntry (updateCurBalance 0 1 1 1 1 1 dbStale).cache "v_total_wealth" (.other []) = none ∧
      lookupEntry (insertCurLedger ⟨"L", .add, 1, 1, 1, 1, 1, "r"⟩
        dbStale).cache "v_currency_history" (.other []) = none) :=
  ⟨by decide,
    c6_write_invalidates_dependents "inventory_current" "v_inventory" "v_inventory"
      "v_inventory_history" "v_total_wealth" "v_currency_history" (.other [])
      [⟨"v_inventory", .other [], .viewRows []⟩] dbStale
      ⟨"A", "Torch", 1, false, none, none, none, false, none⟩ 0 4
      ⟨"A", .add, "Torch", 1, false, none, none, none, "r"⟩
      ⟨"L", .add, 1, 1, 1, 1, 1, "r"⟩ "L" 1 1 1 1 1
      (by decide) (by decide) (by decide) (by decide) (by decide)⟩

lemma pyOr_transfer_from (x : String) (d : String) :
    pyOr (some ("Transfer from another location: " ++ x)) d =
      "Transfer from another location: " ++ x := by
  have hne : ("Transfer from another location: " ++ x) ≠ "" := by
    intro h
    have h2 := congrArg String.length h
    rw [String.length_append] at h2
    have hp : ("Transfer from another location: ").length = 32 := rfl
    have hz : ("" : String).length = 0 := rfl
    omega
  simp [pyOr, hne]

/-- C9: when the source location has no currency record (and the cache
agrees with the remote), `transferCurrency` ignores the error result of
the `removeCurrency` step, still credits the full requested amounts to
the destination — creating its currency row when absent — and returns a
success value; the source side is left unchanged and the only ledger
entry written anywhere is the destination's `add` (no `remove` is
applied). -/
theorem c9_transfer_currency_ignores_missing_source (f t : String) (c s e g p : Int)
    (r : Option String) (db : DB)
    (hc : curCacheConsistent db = true) (hne : f ≠ t)
    (hsrc : curQuery f db.remote.currency_current = [])
    (hdst : curQuery t db.remote.currency_current = []) :
    (transfer_currency f t c s e g p r db).1 = ⟨c, s, e, g, p⟩ ∧
    curQuery f (transfer_currency f t c s e g p r db).2.remote.currency_current = [] ∧
    curQuery t (transfer_currency f t c s e g p r db).2.remote.currency_current =
      [⟨db.remote.next_id, t, c, s, e, g, p⟩] ∧
    (transfer_currency f t c s e g p r db).2.remote.currency_ledger =
      db.remote.currency_ledger ++
        [⟨t, .add, c, s, e, g, p, "Transfer from another location: " ++ pyOr r ""⟩] ∧
    (transfer_currency f t c s e g p r db).2.remote.inventory_current =
      db.remote.inventory_current := by
  have hfst1 := getCur_fst f db hc
  have hrem1 := getCur_remote f true db
  have hco1 := getCur_consistent f db hc
  rw [hsrc] at hfst1
  simp only [transfer_currency, remove_currency, hfst1, removeCurrencyCore]
  have hfst2 := getCur_fst t (getCur f true db).2 hco1
  have hrem2 := getCur_remote t true (getCur f true db).2
  rw [hrem1, hdst] at hfst2
  simp only [add_currency, hfst2, addCurrencyCore]
  have hrem3 := getCur_remote t true
    (insertCurLedger ⟨t, .add, c, s, e, g, p,
        pyOr (some ("Transfer from another location: " ++ pyOr r "")) "Currency added"⟩
      (insertCurRow t c s e g p (getCur t true (getCur f true db).2).2))
  refine ⟨by trivial, ?_, ?_, ?_, ?_⟩
  · rw [hrem3]
    simp only [insertCurLedger, insertCurRow]
    rw [hrem2, hrem1, curQuery_append, hsrc]
    simp [curQuery, Ne.symm hne]
  · rw [hrem3]
    simp only [insertCurLedger, insertCurRow]
    rw [hrem2, hrem1, curQuery_append, hdst]
    simp [curQuery]
  · rw [hrem3]
    simp only [insertCurLedger, insertCurRow]
    rw [hrem2, hrem1, pyOr_transfer_from]
  · rw [hrem3]
    simp only [insertCurLedger, insertCurRow]
    rw [hrem2, hrem1]

/-- Witness for C9: transferring (1,2,3,4,5) from the recordless S to the
recordless D on an empty store succeeds, creates D's row with exactly
those amounts, writes one `add` ledger entry and leaves S untouched. -/
theorem c9_transfer_currency_ignores_missing_source_witness :
    curCacheConsistent dbEmpty = true ∧ "S" ≠ "D" ∧
    curQuery "S" dbEmpty.remote.currency_current = [] ∧
    curQuery "D" dbEmpty.remote.currency_current = [] ∧
    ((transfer_currency "S" "D" 1 2 3 4 5 none dbEmpty).1 = ⟨1, 2, 3, 4, 5⟩ ∧
      curQuery "S" (transfer_currency "S" "D" 1 2 3 4 5 none dbEmpty).2.remote.currency_current = [] ∧
      curQuery "D" (transfer_currency "S" "D" 1 2 3 4 5 none dbEmpty).2.remote.currency_current =
        [⟨dbEmpty.remote.next_id, "D", 1, 2, 3, 4, 5⟩] ∧
      (transfer_currency "S" "D" 1 2 3 4 5 none dbEmpty).2.remote.currency_ledger =
        dbEmpty.remote.currency_ledger ++
          [⟨"D", .add, 1, 2, 3, 4, 5, "Transfer from another location: " ++ pyOr none ""⟩] ∧
      (transfer_currency "S" "D" 1 2 3 4 5 none dbEmpty).2.remote.inventory_current =
        dbEmpty.remote.inventory_current) :=
  ⟨by decide, by decide, by decide, by decide,
    c9_transfer_currency_ignores_missing_source "S" "D" 1 2 3 4 5 none dbEmpty
      (by decide) (by decide) (by decide) (by decide)⟩

lemma removeItemCore_zero (loc name : String) (r : Option String) (items : List InvRow)
    (db1 : DB) :
    removeItemCore loc name (some 0) r items db1 = removeItemCore loc name none r items db1 := by
  cases items with
  | nil => rfl
  | cons item rest => simp [removeItemCore, pyIntOpt]

lemma transferItemCore_zero (f t name : String) (r : Option String) (items : List InvRow)
    (db1 : DB) :
    transferItemCore f t name (some 0) r items db1 =
      transferItemCore f t name none r items db1 := by
  cases items with
  | nil => rfl
  | cons item rest => simp [transferItemCore, pyIntOpt]

/-- C10: a zero quantity argument is treated the same as an absent one —
`removeItem` with quantity 0 equals `removeItem` with no quantity and,
when the key has rows, removes the whole first row (deleting it and
returning the deleted-row result), and `transferItem` with quantity 0
equals `transferItem` with no quantity and transfers the entire current
quantity. -/
theorem c10_zero_quantity_means_all (db : DB) (loc tloc name : String) (r : Option String)
    (item : InvRow) (rest : List InvRow)
    (hc : invCacheConsistent db = true)
    (hq : invQuery loc name db.remote.inventory_current = item :: rest) :
    remove_item loc name (some 0) r db = remove_item loc name none r db ∧
    transfer_item loc tloc name (some 0) r db = transfer_item loc tloc name none r db ∧
    (remove_item loc name (some 0) r db).1 = some (.deleted item) ∧
    (remove_item loc name (some 0) r db).2.remote.inventory_current =
      db.remote.inventory_current.filter (fun rr => decide (rr.id ≠ item.id)) ∧
    (transfer_item loc tloc name (some 0) r db).1 = .success item.quantity name := by
  have hfst := getInv_fst loc name db hc
  have hrem := getInv_remote loc name true db
  rw [hq] at hfst
  refine ⟨?_, ?_, ?_, ?_, ?_⟩
  · simp only [remove_item]
    exact removeItemCore_zero loc name r _ _
  · simp only [transfer_item]
    exact transferItemCore_zero loc tloc name r _ _
  · simp only [remove_item, hfst, removeItemCore, pyIntOpt]
    rw [if_pos (by simp)]
  · simp only [remove_item, hfst, removeItemCore, pyIntOpt]
    rw [if_pos (by simp)]
    simp only [deleteInvById, insertInvLedger]
    rw [hrem]
  · simp only [transfer_item, hfst, transferItemCore, pyIntOpt]
    rw [if_neg (by simp)]
    simp

/-- Witness for C10 on the Torch store: removing with quantity 0 deletes
the row; transferring with quantity 0 moves all 3 Torches. -/
theorem c10_zero_quantity_means_all_witness :
    invCacheConsistent dbTorch = true ∧
    invQuery "A" "Torch" dbTorch.remote.inventory_current = [torchRow] ∧
    (remove_item "A" "Torch" (some 0) none dbTorch = remove_item "A" "Torch" none none dbTorch ∧
      transfer_item "A" "B" "Torch" (some 0) none dbTorch =
        transfer_item "A" "B" "Torch" none none dbTorch ∧
      (remove_item "A" "Torch" (some 0) none dbTorch).1 = some (.deleted torchRow) ∧
      (remove_item "A" "Torch" (some 0) none dbTorch).2.remote.inventory_current =
        dbTorch.remote.inventory_current.filter (fun rr => decide (rr.id ≠ torchRow.id)) ∧
      (transfer_item "A" "B" "Torch" (some 0) none dbTorch).1 = .success torchRow.quantity "Torch") :=
  ⟨by decide, by decide,
    c10_zero_quantity_means_all dbTorch "A" "B" "Torch" none torchRow []
      (by decide) (by decide)⟩

/-- Counterexample to C1: in the spec's own clamped-removal scenario
(add 2 Potions of Healing, then remove 5) the row is deleted, but the
resulting ledger `remove` entry records quantity 5 — the requested
amount — and not the lesser of requested and available (min 5 2 = 2). -/
theorem c1_counterexample :
    ((applyOps opsClamped dbEmpty).remote.inventory_ledger.filter
        (fun e => decide (e.transaction_type = TxType.remove))).map (fun e => e.quantity) = [5] ∧
    invQuery "locA" "Potion of Healing"
      (applyOps opsClamped dbEmpty).remote.inventory_current = [] ∧
    min (5 : Int) 2 = 2 ∧ (5 : Int) ≠ 2 := by
  refine ⟨by decide, by decide, by decide, by decide⟩

/-- C1 (amended): for every `removeItem` call whose effective quantity
(the requested one, or the full current quantity when the argument is
absent or zero) is at least the current quantity of the first row read
for the key, the current-state row is deleted entirely and the ledger
`remove` entry records the *requested* effective amount — which may
exceed the actually removed quantity — not the lesser of the two. -/
theorem c1_amended_remove_records_requested (db : DB) (loc name : String) (q : Option Int)
    (r : Option String) (item : InvRow) (rest : List InvRow)
    (hc : invCacheConsistent db = true)
    (hq : invQuery loc name db.remote.inventory_current = item :: rest)
    (hge : item.quantity ≤ pyIntOpt q item.quantity) :
    (remove_item loc name q r db).1 = some (.deleted item) ∧
    (remove_item loc name q r db).2.remote.inventory_current =
      db.remote.inventory_current.filter (fun rr => decide (rr.id ≠ item.id)) ∧
    (remove_item loc name q r db).2.remote.inventory_ledger =
      db.remote.inventory_ledger ++
        [⟨loc, .remove, name, pyIntOpt q item.quantity, item.is_magic, item.rarity,
          item.item_type, none, pyOr r "Removed from inventory"⟩] := by
  have hfst := getInv_fst loc name db hc
  have hrem := getInv_remote loc name true db
  rw [hq] at hfst
  refine ⟨?_, ?_, ?_⟩
  · simp only [remove_item, hfst, removeItemCore]
    rw [if_pos hge]
  · simp only [remove_item, hfst, removeItemCore]
    rw [if_pos hge]
    simp only [deleteInvById, insertInvLedger]
    rw [hrem]
  · simp only [remove_item, hfst, removeItemCore]
    rw [if_pos hge]
    simp only [deleteInvById, insertInvLedger]
    rw [hrem]

/-- Witness for the amended C1: removing 5 from the 2-Potion row deletes
the row and writes a ledger entry recording 5. -/
theorem c1_amended_remove_records_requested_witness :
    invCacheConsistent dbPotion = true ∧
    invQuery "locA" "Potion of Healing" dbPotion.remote.inventory_current = [potionRow] ∧
    potionRow.quantity ≤ pyIntOpt (some 5) potionRow.quantity ∧
    ((remove_item "locA" "Potion of Healing" (some 5) none dbPotion).1 =
        some (.deleted potionRow) ∧
      (remove_item "locA" "Potion of Healing" (some 5) none dbPotion).2.remote.inventory_current =
        dbPotion.remote.inventory_current.filter (fun rr => decide (rr.id ≠ potionRow.id)) ∧
      (remove_item "locA" "Potion of Healing" (some 5) none dbPotion).2.remote.inventory_ledger =
        dbPotion.remote.inventory_ledger ++
          [⟨"locA", .remove, "Potion of Healing", pyIntOpt (some 5) potionRow.quantity,
            potionRow.is_magic, potionRow.rarity, potionRow.item_type, none,
            pyOr none "Removed from inventory"⟩]) :=
  ⟨by decide, by decide, by decide,
    c1_amended_remove_records_requested dbPotion "locA" "Potion of Healing" (some 5) none
      potionRow [] (by decide) (by decide) (by decide)⟩

/-- Counterexample to C2: on the clamped-removal trace (add 2, remove 5
on an initially empty store) the key's final quantity minus its initial
quantity is 0, while the sum of recorded ledger deltas is 2 - 5 = -3 —
conservation fails when a removal over-requests. -/
theorem c2_counterexample :
    invQty "locA" "Potion of Healing" (applyOps opsClamped dbEmpty).remote.inventory_current -
        invQty "locA" "Potion of Healing" dbEmpty.remote.inventory_current = 0 ∧
    ledgerBalance "locA" "Potion of Healing"
          (applyOps opsClamped dbEmpty).remote.inventory_ledger -
        ledgerBalance "locA" "Potion of Healing" dbEmpty.remote.inventory_ledger = -3 ∧
    (0 : Int) ≠ -3 := by
  refine ⟨by decide, by decide, by decide⟩

/-- C2 (amended): for every sequence of `addItem`/`removeItem`/
`transferItem` calls from a state whose cache agrees with the remote for
inventory reads and whose row ids are well formed, and in which no
removal over-requests (each remove's effective quantity is at most the
first matching row's quantity when the key has rows), the sum of
recorded ledger deltas for any key equals the key's final current-state
quantity minus its initial quantity. -/
theorem c2_amended_ledger_conservation (ops : List InvOp) (db : DB) (lc nm : String)
    (hc : invCacheConsistent db = true) (hw : wfInv db) (hok : okTrace ops db = true) :
    invQty lc nm (applyOps ops db).remote.inventory_current -
        invQty lc nm db.remote.inventory_current =
      ledgerBalance lc nm (applyOps ops db).remote.inventory_ledger -
        ledgerBalance lc nm db.remote.inventory_ledger :=
  (conservation_trace ops db hc hw hok).2.2 lc nm

/-- Witness for the amended C2: the trace add 5 Torches at A, transfer 3
to B, remove 2 at B conserves the (B, Torch) key. -/
theorem c2_amended_ledger_conservation_witness :
    invCacheConsistent dbEmpty = true ∧ wfInv dbEmpty ∧ okTrace opsOk dbEmpty = true ∧
    invQty "B" "Torch" (applyOps opsOk dbEmpty).remote.inventory_current -
        invQty "B" "Torch" dbEmpty.remote.inventory_current =
      ledgerBalance "B" "Torch" (applyOps opsOk dbEmpty).remote.inventory_ledger -
        ledgerBalance "B" "Torch" dbEmpty.remote.inventory_ledger :=
  ⟨by decide, by decide, by decide,
    c2_amended_ledger_conservation opsOk dbEmpty "B" "Torch" (by decide) (by decide) (by decide)⟩

/-- Counterexample to C3: on a state whose cache holds a stale row
(quantity 2) for the (A, Potion) read while the remote row has quantity
10, `remove_item` computes its delta from the cached balance and records
2; the same call on the same remote with an empty cache records 10 — so
the initial read is not performed with caching disabled. -/
theorem c3_counterexample :
    ((remove_item "A" "Potion" none none dbStale).2.remote.inventory_ledger.map
      (fun e => e.quantity)) = [2] ∧
    ((remove_item "A" "Potion" none none ⟨dbStale.remote, []⟩).2.remote.inventory_ledger.map
      (fun e => e.quantity)) = [10] ∧
    invQuery "A" "Potion" dbStale.remote.inventory_current = [remoteRow10] ∧
    remoteRow10.quantity = 10 := by
  refine ⟨by decide, by decide, by decide, by decide⟩

/-- C3 (amended): every mutator performs its initial read through the
Data Access Client with caching left enabled (the `use_cache` default):
whenever the cache holds an entry for the read's query key, the cached
rows — not the remote state — are what the mutator's computation runs
on, so the computed delta can be based on a cached balance. -/
theorem c3_amended_mutator_reads_use_cache (db : DB) (loc name loc2 : String)
    (rows : List InvRow) (crows : List CurRow) (q : Option Int) (r : Option String)
    (c s e g p : Int)
    (h1 : lookupEntry db.cache "inventory_current" (.invKey loc name) = some (.inv rows))
    (h2 : lookupEntry db.cache "currency_current" (.curKey loc2) = some (.cur crows)) :
    getInv loc name true db = (rows, db) ∧
    getCur loc2 true db = (crows, db) ∧
    remove_item loc name q r db = removeItemCore loc name q r rows db ∧
    transfer_item loc loc2 name q r db = transferItemCore loc loc2 name q r rows db ∧
    remove_currency loc2 c s e g p r db = removeCurrencyCore loc2 c s e g p r crows db ∧
    add_currency loc2 c s e g p r db = addCurrencyCore loc2 c s e g p r crows db := by
  have hg1 : getInv loc name true db = (rows, db) := by
    unfold getInv
    simp [h1]
  have hg2 : getCur loc2 true db = (crows, db) := by
    unfold getCur
    simp [h2]
  refine ⟨hg1, hg2, ?_, ?_, ?_, ?_⟩
  · simp only [remove_item, hg1]
  · simp only [transfer_item, hg1]
  · simp only [remove_currency, hg2]
  · simp only [add_currency, hg2]

/-- Witness for the amended C3: on the stale-cache state, the reads of
the mutators return the stale cached rows unchanged. -/
theorem c3_amended_mutator_reads_use_cache_witness :
    lookupEntry dbStale.cache "inventory_current" (.invKey "A" "Potion") =
      some (.inv [staleRow]) ∧
    lookupEntry dbStale.cache "currency_current" (.curKey "L") = some (.cur [staleCurRow]) ∧
    (getInv "A" "Potion" true dbStale = ([staleRow], dbStale) ∧
      getCur "L" true dbStale = ([staleCurRow], dbStale) ∧
      remove_item "A" "Potion" none none dbStale =
        removeItemCore "A" "Potion" none none [staleRow] dbStale ∧
      transfer_item "A" "L" "Potion" none none dbStale =
        transferItemCore "A" "L" "Potion" none none [staleRow] dbStale ∧
      remove_currency "L" 1 0 0 0 0 none dbStale =
        removeCurrencyCore "L" 1 0 0 0 0 none [staleCurRow] dbStale ∧
      add_currency "L" 1 0 0 0 0 none dbStale =
        addCurrencyCore "L" 1 0 0 0 0 none [staleCurRow] dbStale) :=
  ⟨by decide, by decide,
    c3_amended_mutator_reads_use_cache dbStale "A" "Potion" "L" [staleRow] [staleCurRow]
      none none 1 0 0 0 0 (by decide) (by decide)⟩

/-- Counterexample to C4: a second `addItem` for the existing
(locA, Potion of Healing) key does not update the existing row but
inserts a second row for the same key: afterwards the key has two rows
with quantities 2 and 3, not one row with quantity 5. -/
theorem c4_counterexample :
    (invQuery "locA" "Potion of Healing"
        (add_item "locA" "Potion of Healing" 3 false none none none false none none
          dbPotion).2.remote.inventory_current).map (fun rr => rr.quantity) = [2, 3] ∧
    (invQuery "locA" "Potion of Healing"
        (add_item "locA" "Potion of Healing" 3 false none none none false none none
          dbPotion).2.remote.inventory_current).length = 2 := by
  refine ⟨by decide, by decide⟩

/-- C4 (amended): `addCurrency` writes in place — it updates the
location's existing row when one exists and inserts only when none
exists — but `addItem` always inserts a fresh `inventory_current` row,
so a second `addItem` for an existing (location, item-name) key creates
a second row for that key instead of updating the first. -/
theorem c4_amended_write_in_place (db : DB) (loc name : String) (qty : Int) (m : Bool)
    (ra ty de : Option String) (at_ : Bool) (no re : Option String)
    (db2 : DB) (loc2 : String) (c s e g p : Int) (r2 : Option String)
    (row : CurRow) (rrest : List CurRow)
    (db3 : DB) (loc3 : String) (c3 s3 e3 g3 p3 : Int) (r3 : Option String)
    (hc2 : curCacheConsistent db2 = true)
    (hrec2 : curQuery loc2 db2.remote.currency_current = row :: rrest)
    (hc3 : curCacheConsistent db3 = true)
    (hrec3 : curQuery loc3 db3.remote.currency_current = []) :
    (add_item loc name qty m ra ty de at_ no re db).2.remote.inventory_current =
      db.remote.inventory_current ++
        [⟨db.remote.next_id, loc, name, qty, m, strOpt ra, strOpt ty, strOpt de, at_,
          strOpt no⟩] ∧
    (add_currency loc2 c s e g p r2 db2).2.remote.currency_current =
      db2.remote.currency_current.map (fun rr => if rr.id = row.id then
        ⟨rr.id, rr.storage_location_id, row.copper + c, row.silver + s, row.electrum + e,
          row.gold + g, row.platinum + p⟩ else rr) ∧
    (add_currency loc3 c3 s3 e3 g3 p3 r3 db3).2.remote.currency_current =
      db3.remote.currency_current ++ [⟨db3.remote.next_id, loc3, c3, s3, e3, g3, p3⟩] := by
  refine ⟨?_, ?_, ?_⟩
  · simp only [add_item, insertInvLedger, insertInvRow]
  · have hfst := getCur_fst loc2 db2 hc2
    have hrem := getCur_remote loc2 true db2
    rw [hrec2] at hfst
    simp only [add_currency, hfst, addCurrencyCore]
    rw [getCur_remote]
    simp only [insertCurLedger, updateCurBalance]
    rw [hrem]
  · have hfst := getCur_fst loc3 db3 hc3
    have hrem := getCur_remote loc3 true db3
    rw [hrec3] at hfst
    simp only [add_currency, hfst, addCurrencyCore]
    rw [getCur_remote]
    simp only [insertCurLedger, insertCurRow]
    rw [hrem]

/-- Witness for the amended C4: a second `addItem` appends a second
Potion row; `addCurrency` on L's existing record updates it in place;
`addCurrency` on the recordless empty store inserts a fresh row. -/
theorem c4_amended_write_in_place_witness :
    curCacheConsistent dbCurL = true ∧
    curQuery "L" dbCurL.remote.currency_current = [curRowL] ∧
    curCacheConsistent dbEmpty = true ∧
    curQuery "L" dbEmpty.remote.currency_current = [] ∧
    ((add_item "locA" "Potion of Healing" 3 false none none none false none none
        dbPotion).2.remote.inventory_current =
      dbPotion.remote.inventory_current ++
        [⟨dbPotion.remote.next_id, "locA", "Potion of Healing", 3, false, strOpt none,
          strOpt none, strOpt none, false, strOpt none⟩] ∧
    (add_currency "L" 1 2 3 4 5 none dbCurL).2.remote.currency_current =
      dbCurL.remote.currency_current.map (fun rr => if rr.id = curRowL.id then
        ⟨rr.id, rr.storage_location_id, curRowL.copper + 1, curRowL.silver + 2,
          curRowL.electrum + 3, curRowL.gold + 4, curRowL.platinum + 5⟩ else rr) ∧
    (add_currency "L" 1 2 3 4 5 none dbEmpty).2.remote.currency_current =
      dbEmpty.remote.currency_current ++ [⟨dbEmpty.remote.next_id, "L", 1, 2, 3, 4, 5⟩]) :=
  ⟨by decide, by decide, by decide, by decide,
    c4_amended_write_in_place dbPotion "locA" "Potion of Healing" 3 false none none none
      false none none dbCurL "L" 1 2 3 4 5 none curRowL [] dbEmpty "L" 1 2 3 4 5 none
      (by decide) (by decide) (by decide) (by decide)⟩

/-- Counterexample to C7: two states that differ in the destination's
holdings produce the identical `transfer_item` success value while the
resulting destination current-state rows differ — so the success value
does not carry (or even determine) the resulting current-state row(s). -/
theorem c7_counterexample :
    (transfer_item "A" "B" "Torch" (some 3) none dbTorch).1 =
      (transfer_item "A" "B" "Torch" (some 3) none dbTorchB).1 ∧
    invQuery "B" "Torch"
        (transfer_item "A" "B" "Torch" (some 3) none dbTorch).2.remote.inventory_current ≠
      invQuery "B" "Torch"
        (transfer_item "A" "B" "Torch" (some 3) none dbTorchB).2.remote.inventory_current := by
  refine ⟨by decide, by decide⟩

/-- C7 (amended): on a precondition failure (row not found, transfer
quantity exceeding the available quantity, no currency record) every
mutator returns a structured error value — or None for `removeItem`'s
not-found case — and never an exception, with the remote state unchanged
on such a rejection; on success, however, `transferItem` returns a
success summary (the transferred quantity and item name), not the
resulting current-state row(s). -/
theorem c7_amended_precondition_failures (dbA : DB) (a na : String) (qA : Option Int)
    (rA : Option String)
    (dbB : DB) (b b2 nb : String) (qB : Option Int) (rB : Option String)
    (dbC : DB) (bc tc nc : String) (qCv : Int) (rC : Option String)
    (srcC : InvRow) (restC : List InvRow)
    (dbD : DB) (dloc : String) (c s e g p : Int) (rD : Option String)
    (hcA : invCacheConsistent dbA = true)
    (hA : invQuery a na dbA.remote.inventory_current = [])
    (hcB : invCacheConsistent dbB = true)
    (hB : invQuery b nb dbB.remote.inventory_current = [])
    (hcC : invCacheConsistent dbC = true)
    (hCq : invQuery bc nc dbC.remote.inventory_current = srcC :: restC)
    (hgt : srcC.quantity < pyIntOpt (some qCv) srcC.quantity)
    (hcD : curCacheConsistent dbD = true)
    (hD : curQuery dloc dbD.remote.currency_current = []) :
    (remove_item a na qA rA dbA).1 = none ∧
    (remove_item a na qA rA dbA).2.remote = dbA.remote ∧
    (transfer_item b b2 nb qB rB dbB).1 =
      .error ("Item '" ++ nb ++ "' not found in source location") ∧
    (transfer_item b b2 nb qB rB dbB).2.remote = dbB.remote ∧
    (transfer_item bc tc nc (some qCv) rC dbC).1 =
      .error ("Cannot transfer " ++ toString (pyIntOpt (some qCv) srcC.quantity) ++
        ", only " ++ toString srcC.quantity ++ " available") ∧
    (transfer_item bc tc nc (some qCv) rC dbC).2.remote = dbC.remote ∧
    (remove_currency dloc c s e g p rD dbD).1 =
      .error "No currency record found for this location" ∧
    (remove_currency dloc c s e g p rD dbD).2.remote = dbD.remote := by
  have hfA := getInv_fst a na dbA hcA
  rw [hA] at hfA
  have hfB := getInv_fst b nb dbB hcB
  rw [hB] at hfB
  have hfC := getInv_fst bc nc dbC hcC
  rw [hCq] at hfC
  have hfD := getCur_fst dloc dbD hcD
  rw [hD] at hfD
  refine ⟨?_, ?_, ?_, ?_, ?_, ?_, ?_, ?_⟩
  · simp only [remove_item, hfA, removeItemCore]
  · simp only [remove_item, hfA, removeItemCore]
    exact getInv_remote a na true dbA
  · simp only [transfer_item, hfB, transferItemCore]
  · simp only [transfer_item, hfB, transferItemCore]
    exact getInv_remote b nb true dbB
  · simp only [transfer_item, hfC, transferItemCore]
    rw [if_pos hgt]
  · simp only [transfer_item, hfC, transferItemCore]
    rw [if_pos hgt]
    exact getInv_remote bc nc true dbC
  · simp only [remove_currency, hfD, removeCurrencyCore]
  · simp only [remove_currency, hfD, removeCurrencyCore]
    exact getCur_remote dloc true dbD

/-- Witness for the amended C7 on the Torch store: a missing key yields
None (remove) or the not-found error (transfer) with nothing changed, a
transfer of 5 of the 3 available yields the cannot-transfer error with
nothing changed, and removing currency from a recordless location yields
the structured error with nothing changed. -/
theorem c7_amended_precondition_failures_witness :
    invCacheConsistent dbTorch = true ∧
    invQuery "X" "Nope" dbTorch.remote.inventory_current = [] ∧
    invQuery "A" "Torch" dbTorch.remote.inventory_current = [torchRow] ∧
    torchRow.quantity < pyIntOpt (some 5) torchRow.quantity ∧
    curCacheConsistent dbTorch = true ∧
    curQuery "L" dbTorch.remote.currency_current = [] ∧
    ((remove_item "X" "Nope" none none dbTorch).1 = none ∧
      (remove_item "X" "Nope" none none dbTorch).2.remote = dbTorch.remote ∧
      (transfer_item "X" "B" "Nope" none none dbTorch).1 =
        .error ("Item '" ++ "Nope" ++ "' not found in source location") ∧
      (transfer_item "X" "B" "Nope" none none dbTorch).2.remote = dbTorch.remote ∧
      (transfer_item "A" "B" "Torch" (some 5) none dbTorch).1 =
        .error ("Cannot transfer " ++ toString (pyIntOpt (some 5) torchRow.quantity) ++
          ", only " ++ toString torchRow.quantity ++ " available") ∧
      (transfer_item "A" "B" "Torch" (some 5) none dbTorch).2.remote = dbTorch.remote ∧
      (remove_currency "L" 1 0 0 0 0 none dbTorch).1 =
        .error "No currency record found for this location" ∧
      (remove_currency "L" 1 0 0 0 0 none dbTorch).2.remote = dbTorch.remote) :=
  ⟨by decide, by decide, by decide, by decide, by decide, by decide,
    c7_amended_precondition_failures dbTorch "X" "Nope" none none dbTorch "X" "B" "Nope"
      none none dbTorch "A" "B" "Torch" 5 none torchRow [] dbTorch "L" 1 0 0 0 0 none
      (by decide) (by decide) (by decide) (by decide) (by decide) (by decide)
      (by decide) (by decide) (by decide)⟩
